import Mathlib

/-!
# Plain-text renderer of a mobiledoc document

A shallow embedding of `text_renderer.go` (`TextRenderer.Render` and the
functions it calls) together with theorems about what it writes and returns.

Conventions of the embedding:

* the buffered writer is a value threaded through every function (explicit
  state passing); the underlying sink accepts every write, except in the
  functions named `...On`, which take the behaviour of the sink as an argument;
* a Go `error` result and a nil-pointer panic are the two ways a function can
  stop early, both recorded in `Outcome`;
* a host callback is given by the text it writes to the writer and the error
  it returns; the maps of the registry hold no nil function;
* a `for ... range` loop with an early `return` is a recursion over the list.
-/

namespace Mobiledoc

/-! ## Data model -/

/-- Modelled from the spec: a value stored in a payload or attribute mapping
(`interface{}` in the source); the renderer never inspects it. -/
inductive Value where
  | int (i : Int)
  | str (s : String)
  deriving DecidableEq

/-- Modelled from the spec: the `Map` type (free-form key/value mapping) is
declared outside the rendered source files; the renderer only passes it on. -/
abbrev Map := List (String × Value)

/-- A Go `error` value, identified by its message. -/
abbrev Error := String

/-- Modelled from the spec: Markup, a named inline style annotation with
optional attributes. -/
structure Markup where
  Tag : String
  Attributes : Map
  deriving DecidableEq

/-- Modelled from the spec: Atom, a named inline extension with literal text
and a payload. -/
structure Atom where
  Name : String
  Text : String
  Payload : Map
  deriving DecidableEq

/-- Modelled from the spec: Card, a named block-level extension with a
payload. -/
structure Card where
  Name : String
  Payload : Map
  deriving DecidableEq

/-- Modelled from the spec: the tag of a Marker. The source switches on
`TextMarker` and `AtomMarker` without a default case, so any other tag value
is kept as `other`. -/
inductive MarkerType where
  | TextMarker
  | AtomMarker
  | other (code : Nat)
  deriving DecidableEq

/-- Modelled from the spec: Marker. `Atom` is a pointer in the source, so it
may be absent (nil). The Go field `Type` is spelled `Typ`. -/
structure Marker where
  Typ : MarkerType
  OpenMarkups : List Markup
  ClosedMarkups : Nat
  Text : String
  Atom : Option Atom
  deriving DecidableEq

/-- Modelled from the spec: the tag of a Section. The source switches on the
four named kinds and falls through for every other tag value. -/
inductive SectionType where
  | MarkupSection
  | ImageSection
  | ListSection
  | CardSection
  | other (code : Nat)
  deriving DecidableEq

/-- Modelled from the spec: Section, one record carrying the fields of every
kind (as the Go struct does). `Card` is a pointer in the source, so it may be
absent (nil). The Go field `Type` is spelled `Typ`. -/
structure Section where
  Typ : SectionType
  Tag : String
  Markers : List Marker
  Source : String
  Items : List (List Marker)
  Card : Option Card
  deriving DecidableEq

/-- Modelled from the spec: Document, the ordered sections and the lookup
tables they refer to. -/
structure Document where
  Version : String
  Markups : List Markup
  Atoms : List Atom
  Cards : List Card
  Sections : List Section
  deriving DecidableEq

/-! ## Outcomes, the buffered writer, the registry -/

/-- How a rendering function ends: it returns nil, it returns a non-nil error,
or it dereferences a nil `Atom`/`Card` pointer. -/
inductive Outcome where
  | ok
  | fail (e : Error)
  | nilPanic
  deriving DecidableEq

/-- The `*bufio.Writer` the renderer writes to. `written` is all the text
written to it so far, in order; `flushed` tells whether `Flush` was the last
operation on it, in which case the sink has received all of `written`. -/
structure Writer where
  written : String
  flushed : Bool
  deriving DecidableEq

/-- `bufio.NewWriter(w)`: nothing written yet. -/
def NewWriter : Writer := ⟨"", false⟩

/-- `w.WriteString(s)`: appends `s`; the sink accepts every write, so the
error result is nil. -/
def Writer.WriteString (w : Writer) (s : String) : Writer × Option Error :=
  (⟨w.written ++ s, false⟩, none)

/-- `bw.Flush()`: hands everything written to the sink. -/
def Writer.Flush (w : Writer) : Writer × Option Error :=
  (⟨w.written, true⟩, none)

/-- A host-supplied atom renderer `func(*bufio.Writer, string, Map) error`,
given by the text it writes to the writer and the error it returns. -/
abbrev AtomFn := String → Map → String × Option Error

/-- A host-supplied card renderer `func(*bufio.Writer, Map) error`, given by
the text it writes to the writer and the error it returns. -/
abbrev CardFn := Map → String × Option Error

/-- The struct `TextRenderer`: two Go maps from a name to a callback. -/
structure TextRenderer where
  Atoms : String → Option AtomFn
  Cards : String → Option CardFn

/-- `NewTextRenderer()`: both maps empty. -/
def NewTextRenderer : TextRenderer := ⟨fun _ => none, fun _ => none⟩

/-- Running a callback on the writer: its text is appended and its error is
its result. -/
def Writer.call (w : Writer) (res : String × Option Error) : Writer × Option Error :=
  (⟨w.written ++ res.1, false⟩, res.2)

/-- Modelled from the spec: the `markupStack` type and its `push` are declared
outside the rendered source files. `push(markup)` records one markup as
currently open, in call order. -/
structure markupStack where
  list : List Markup
  deriving DecidableEq

/-- Modelled from the spec: `push` of `markupStack`, see there. -/
def markupStack.push (s : markupStack) (m : Markup) : markupStack :=
  ⟨s.list ++ [m]⟩

/-- Modelled from the spec: the two functions of the `net/url` library used by
the renderer, `url.Parse` and the `String` method of its result. -/
structure UrlLib (U : Type) where
  Parse : String → Except Error U
  Str : U → String

/-! ## The renderer -/

/-- The body of the loop of `renderMarkers` for one marker: push the opening
markups, then write the marker by its type. -/
def renderMarker (_r : TextRenderer) (w : Writer) (stack : markupStack) (marker : Marker) :
    Writer × markupStack × Outcome :=
  let stack := marker.OpenMarkups.foldl markupStack.push stack
  match marker.Typ with
  | .TextMarker =>
    match w.WriteString marker.Text with
    | (w, some err) => (w, stack, .fail err)
    | (w, none) => (w, stack, .ok)
  | .AtomMarker =>
    match marker.Atom with
    | none => (w, stack, .nilPanic)
    | some atom =>
      match w.WriteString atom.Text with
      | (w, some err) => (w, stack, .fail err)
      | (w, none) => (w, stack, .ok)
  | .other _ => (w, stack, .ok)

/-- The loop of `renderMarkers`, with the stack it maintains. -/
def renderMarkersLoop (r : TextRenderer) (w : Writer) (stack : markupStack) :
    List Marker → Writer × markupStack × Outcome
  | [] => (w, stack, .ok)
  | marker :: rest =>
    match renderMarker r w stack marker with
    | (w, stack, .ok) => renderMarkersLoop r w stack rest
    | (w, stack, o) => (w, stack, o)

/-- `renderMarkers`: a fresh stack, then the loop. -/
def renderMarkers (r : TextRenderer) (w : Writer) (markers : List Marker) : Writer × Outcome :=
  let res := renderMarkersLoop r w ⟨[]⟩ markers
  (res.1, res.2.2)

/-- `renderMarkupSection`. -/
def renderMarkupSection (r : TextRenderer) (w : Writer) (sec : Section) : Writer × Outcome :=
  match renderMarkers r w sec.Markers with
  | (w, .ok) => (w, .ok)
  | (w, o) => (w, o)

/-- `renderImageSection`. -/
def renderImageSection {U : Type} (url : UrlLib U) (_r : TextRenderer) (w : Writer)
    (sec : Section) : Writer × Outcome :=
  match url.Parse sec.Source with
  | .error err => (w, .fail err)
  | .ok src =>
    match w.WriteString (" " ++ url.Str src ++ " ") with
    | (w, some err) => (w, .fail err)
    | (w, none) => (w, .ok)

/-- The loop of `renderListSection` over the items. -/
def renderItems (r : TextRenderer) (w : Writer) : List (List Marker) → Writer × Outcome
  | [] => (w, .ok)
  | item :: rest =>
    match renderMarkers r w item with
    | (w, .ok) => renderItems r w rest
    | (w, o) => (w, o)

/-- `renderListSection`. -/
def renderListSection (r : TextRenderer) (w : Writer) (sec : Section) : Writer × Outcome :=
  renderItems r w sec.Items

/-- `renderCardSection`. -/
def renderCardSection (r : TextRenderer) (w : Writer) (sec : Section) : Writer × Outcome :=
  match sec.Card with
  | none => (w, .nilPanic)
  | some card =>
    match r.Cards card.Name with
    | none => (w, .fail "missing card renderer")
    | some renderer =>
      match w.call (renderer card.Payload) with
      | (w, some err) => (w, .fail err)
      | (w, none) => (w, .ok)

/-- `renderSection`: select the sub renderer by the section's type. -/
def renderSection {U : Type} (url : UrlLib U) (r : TextRenderer) (w : Writer)
    (sec : Section) : Writer × Outcome :=
  match sec.Typ with
  | .MarkupSection => renderMarkupSection r w sec
  | .ImageSection => renderImageSection url r w sec
  | .ListSection => renderListSection r w sec
  | .CardSection => renderCardSection r w sec
  | .other _ => (w, .ok)

/-- The loop of `Render` over the sections. -/
def renderSections {U : Type} (url : UrlLib U) (r : TextRenderer) (w : Writer) :
    List Section → Writer × Outcome
  | [] => (w, .ok)
  | sec :: rest =>
    match renderSection url r w sec with
    | (w, .ok) => renderSections url r w rest
    | (w, o) => (w, o)

/-- `Render`: wrap the sink, render the sections, flush. -/
def Render {U : Type} (url : UrlLib U) (r : TextRenderer) (doc : Document) : Writer × Outcome :=
  let bw := NewWriter
  match renderSections url r bw doc.Sections with
  | (bw, .ok) =>
    match bw.Flush with
    | (bw, some err) => (bw, .fail err)
    | (bw, none) => (bw, .ok)
  | (bw, o) => (bw, o)

/-! ## Vocabulary of the statements -/

/-- Concatenation of a list of texts, in order, with nothing in between. -/
def concatText : List String → String
  | [] => ""
  | s :: rest => s ++ concatText rest

/-- A URL library for the examples: a source holding a control character does
not parse, every other source parses and prints as itself. -/
def sampleUrl : UrlLib String where
  Parse := fun s =>
    if s.data.any (fun c => decide (c.toNat < 32) || decide (c.toNat = 127)) then
      .error "invalid control character in URL"
    else .ok s
  Str := fun u => u

/-- Sequencing as the loops do it: run `F`, and run `G` on the writer it leaves
only when `F` ended with `ok`. -/
def andThen (F G : Writer → Writer × Outcome) (w : Writer) : Writer × Outcome :=
  match F w with
  | (w1, .ok) => G w1
  | (w1, o) => (w1, o)

/-- One marker as `renderMarkers` handles it: the writer and the outcome the
loop body leaves (the stack is local to `renderMarkers`). -/
def writeMarker (r : TextRenderer) (w : Writer) (marker : Marker) : Writer × Outcome :=
  ((renderMarker r w ⟨[]⟩ marker).1, (renderMarker r w ⟨[]⟩ marker).2.2)

/-- A step `F` only appends: the text it adds to the writer and the way it ends
do not depend on the writer it is given. -/
def Appends (F : Writer → Writer × Outcome) : Prop :=
  ∃ d o, ∀ w, (F w).1.written = w.written ++ d ∧ (F w).2 = o

/-- A marker as the plain documents have them: a TextMarker that opens no
markup and closes none. -/
def plainText (m : Marker) : Prop :=
  m.Typ = .TextMarker ∧ m.OpenMarkups = [] ∧ m.ClosedMarkups = 0

instance (m : Marker) : Decidable (plainText m) := by
  unfold plainText; infer_instance

/-- The markers a section carries, in order: the markers of a markup section,
the markers of the items of a list section one item after the other. -/
def sectionMarkers (sec : Section) : List Marker :=
  match sec.Typ with
  | .MarkupSection => sec.Markers
  | .ListSection => sec.Items.flatten
  | _ => []

/-- The marker with its markup bookkeeping zeroed out: no OpenMarkups and
ClosedMarkups = 0, everything else kept. -/
def zeroMarkups (m : Marker) : Marker :=
  { m with OpenMarkups := [], ClosedMarkups := 0 }

/-- The renderer of the repository's test: both atoms print the text they are
given, the cards print their starred name. -/
def testRenderer : TextRenderer where
  Atoms := fun name =>
    if name = "atom1" ∨ name = "atom2" then some (fun text _ => (text, none)) else none
  Cards := fun name =>
    if name = "card1" then some (fun _ => ("**card1**", none))
    else if name = "card2" then some (fun _ => ("**card2**", none))
    else none

/-- A renderer whose atom `atom1` prints `X` whatever its text is. -/
def shoutRenderer : TextRenderer where
  Atoms := fun name => if name = "atom1" then some (fun _ _ => ("X", none)) else none
  Cards := fun _ => none

/-- A renderer whose atom `atom1` writes nothing and returns the error `boom`. -/
def failingAtomRenderer : TextRenderer where
  Atoms := fun name => if name = "atom1" then some (fun _ _ => ("", some "boom")) else none
  Cards := fun _ => none

/-- The first atom of the test document. -/
def atom1 : Atom := ⟨"atom1", "__atom1_txt__", [("bar", .int 42)]⟩

/-- The second atom of the test document. -/
def atom2 : Atom := ⟨"atom2", "__atom2_txt__", [("bar", .int 24)]⟩

/-- The markup `b` of the test document. -/
def bold : Markup := ⟨"b", []⟩

/-- An atom marker for `a` that opens `opens` and closes `closed` markups. -/
def atomMarker (opens : List Markup) (closed : Nat) (a : Atom) : Marker :=
  ⟨.AtomMarker, opens, closed, "", some a⟩

/-- A text marker that opens `opens` and closes `closed` markups. -/
def textMarker (opens : List Markup) (closed : Nat) (text : String) : Marker :=
  ⟨.TextMarker, opens, closed, text, none⟩

/-- The outcome of a callback: nil is `ok`, a non-nil error is `fail`. -/
def Outcome.ofError : Option Error → Outcome
  | none => .ok
  | some e => .fail e

/-- A loop over `xs` that runs the step `F x` for each element in order and
stops at the first one that does not end with `ok`. -/
def seqAll {α : Type} (F : α → Writer → Writer × Outcome) : List α → Writer → Writer × Outcome
  | [] => fun w => (w, .ok)
  | x :: xs => andThen (F x) (seqAll F xs)

/-- The first card of the test document. -/
def card1 : Card := ⟨"card1", [("foo", .int 42)]⟩

/-- The second card of the test document. -/
def card2 : Card := ⟨"card2", [("foo", .int 42)]⟩

/-- A card for which the test renderer registers nothing. -/
def card3 : Card := ⟨"card3", []⟩

/-- A card section for `c`. -/
def cardSection (c : Card) : Section := ⟨.CardSection, "", [], "", [], some c⟩

/-- A markup section (a paragraph) of the markers `ms`. -/
def markupSection (ms : List Marker) : Section := ⟨.MarkupSection, "p", ms, "", [], none⟩

/-- An image section of source `src`. -/
def imageSection (src : String) : Section := ⟨.ImageSection, "", [], src, [], none⟩

/-- A list section of the items `items`. -/
def listSection (items : List (List Marker)) : Section :=
  ⟨.ListSection, "ul", [], "", items, none⟩

/-- A document of the sections `secs`. -/
def docOf (secs : List Section) : Document :=
  { Version := "0.3.1", Markups := [], Atoms := [], Cards := [], Sections := secs }

/-- A plain document: a markup section of two text markers, then a list section
of two items. -/
def plainDoc : Document :=
  docOf
    [ markupSection [textMarker [] 0 "one ", textMarker [] 0 "two"],
      listSection [[textMarker [] 0 " three"], [textMarker [] 0 " four"]] ]

/-- The document of the scenario: the section of a card named `card1` with
payload `p`, a paragraph of two text markers of which the first has the text
`first`, and an image. -/
def scenarioDoc (p : Map) (first : String) : Document :=
  docOf
    [ cardSection ⟨"card1", p⟩,
      markupSection [textMarker [] 0 first, textMarker [bold] 1 "then marked up text "],
      imageSection "http://example.com/foo.png" ]

/-- A section of a kind the renderer does not know, with every other field
filled in. -/
def strangeSection : Section :=
  ⟨.other 7, "x", [textMarker [bold] 1 "text", ⟨.AtomMarker, [], 0, "", none⟩],
    "not a uri \x7f", [[textMarker [] 0 "item"]], some card3⟩

/-- The depth of the markup stack: the number of markups recorded as open. -/
def markupStack.depth (s : markupStack) : Nat := s.list.length

/-- The total number of OpenMarkups of the markers `ms`. -/
def openCount (ms : List Marker) : Nat := (ms.map (fun m => m.OpenMarkups.length)).sum

/-- The sum of the ClosedMarkups of the markers `ms`. -/
def closeCount (ms : List Marker) : Nat := (ms.map (fun m => m.ClosedMarkups)).sum

/-- A section that makes the render fail: an image whose Source does not
parse, a card whose name is not a key of `r.Cards`, or a card whose registered
renderer returns an error. -/
def badSection {U : Type} (url : UrlLib U) (r : TextRenderer) (sec : Section) : Prop :=
  (sec.Typ = .ImageSection ∧ ∃ e, url.Parse sec.Source = .error e) ∨
  (sec.Typ = .CardSection ∧ ∃ card, sec.Card = some card ∧ r.Cards card.Name = none) ∨
  (sec.Typ = .CardSection ∧ ∃ card f e, sec.Card = some card ∧ r.Cards card.Name = some f ∧
    (f card.Payload).2 = some e)

/-- The references a section needs are present: a card section has its Card,
and every atom marker among the markers of a markup section or of the items of
a list section has its Atom. -/
def sectionRefsPresent (sec : Section) : Prop :=
  (sec.Typ = .CardSection → sec.Card ≠ none) ∧
  (∀ m ∈ sectionMarkers sec, m.Typ = .AtomMarker → m.Atom ≠ none)

instance (sec : Section) : Decidable (sectionRefsPresent sec) := by
  unfold sectionRefsPresent; infer_instance

/-- The references every section of the document needs are present. -/
def refsPresent (doc : Document) : Prop :=
  ∀ sec ∈ doc.Sections, sectionRefsPresent sec

instance (doc : Document) : Decidable (refsPresent doc) := by
  unfold refsPresent; infer_instance

/-- The document of the test of the repository, its last section being the card
section of `card2`. -/
def testDoc : Document :=
  { Version := "0.3.1",
    Markups := [bold, ⟨"i", []⟩, ⟨"a", [("href", .str "http://example.com")]⟩],
    Atoms := [atom1, atom2],
    Cards := [card1, card2],
    Sections :=
      [ cardSection card1,
        markupSection
          [ textMarker [] 0 " then text ",
            textMarker [bold] 1 "then marked up text ",
            textMarker [⟨"i", []⟩] 0 "then more ",
            textMarker [] 1 "then one close markup ",
            textMarker [⟨"i", []⟩, ⟨"a", [("href", .str "http://example.com")]⟩] 1
              "then 2 open 1 closed markups ",
            textMarker [] 1 "then one close markup " ],
        markupSection
          [atomMarker [] 0 atom1, atomMarker [bold] 0 atom2, atomMarker [] 1 atom1],
        imageSection "http://example.com/foo.png",
        listSection
          [ [ textMarker [] 0 "then first ul item ",
              textMarker [bold] 1 "then second ul item 1 open 1 close markup " ],
            [ textMarker [bold] 0 "then another open markup ",
              textMarker [] 1 "then escaped html stuff <foo> " ] ],
        cardSection card2 ] }

/-- The output the test of the repository expects for `testDoc`. -/
def testOut : String :=
  "**card1** then text then marked up text then more then one close markup "
    ++ "then 2 open 1 closed markups then one close markup "
    ++ "__atom1_txt____atom2_txt____atom1_txt__ http://example.com/foo.png "
    ++ "then first ul item then second ul item 1 open 1 close markup "
    ++ "then another open markup then escaped html stuff <foo> **card2**"

/-- A section of unknown kind without card, whose markers and items are atom
markers without atom. -/
def bareSection : Section :=
  ⟨.other 9, "", [⟨.AtomMarker, [], 0, "", none⟩], "", [[⟨.AtomMarker, [], 0, "", none⟩]], none⟩

/-- A document whose references are all present and whose second section is an
image that does not parse, before the section of a card that is not
registered. -/
def brokenImageDoc : Document :=
  docOf [markupSection [textMarker [] 0 "a ", atomMarker [] 0 atom1],
    imageSection "not a uri \x7f", cardSection card3]

/-- A document with a section of unknown kind that holds no reference, a
paragraph of a text marker and an atom marker, and a card section. -/
def sparseDoc : Document :=
  docOf [bareSection, markupSection [textMarker [] 0 "a ", atomMarker [] 0 atom1],
    cardSection card1]

/-- The test renderer with the atom registry of `failingAtomRenderer`. -/
def otherAtomsRenderer : TextRenderer where
  Atoms := failingAtomRenderer.Atoms
  Cards := testRenderer.Cards

/-- A document whose paragraph holds an atom marker without Atom, followed by
an image that does not parse. -/
def nilAtomThenImageDoc : Document :=
  docOf [markupSection [textMarker [] 0 "a ", ⟨.AtomMarker, [], 0, "", none⟩],
    imageSection "not a uri \x7f"]

/-- A document made of one paragraph whose only marker is an atom marker
without Atom. -/
def nilAtomDoc : Document :=
  docOf [markupSection [⟨.AtomMarker, [], 0, "", none⟩]]

/-! ## The marker loop and the list section over a sink that may refuse a write

The functions above take the sink to accept every write. The functions of this
section are the same code for `renderMarkers` and `renderListSection` with the
behaviour of the sink explicit, so that `WriteString` can return an error. -/

/-- What the sink under the buffered writer does with a write, asked with the
text written so far and the text to write: `none` when it takes the text, the
error when it refuses it. -/
abbrev Sink := String → String → Option Error

/-- The sink that takes every write. -/
def acceptAll : Sink := fun _ _ => none

/-- A sink that takes `limit` characters in all and refuses, with the error
`short write`, the write that would go beyond. -/
def boundedSink (limit : Nat) : Sink := fun written s =>
  if written.length + s.length ≤ limit then none else some "short write"

/-- The `*bufio.Writer` over a sink that may refuse. `written` is the text of
the writes that succeeded, `flushed` is as in `Writer`, and `err` is the error
the writer keeps once a write was refused: every later write returns it. -/
structure SinkWriter where
  written : String
  flushed : Bool
  err : Option Error
  deriving DecidableEq

/-- A writer of the accepting model seen as a writer over a sink, no write
refused so far. -/
def Writer.over (w : Writer) : SinkWriter := ⟨w.written, w.flushed, none⟩

/-- `w.WriteString(s)` over the sink `sink`: the kept error if there is one,
else the error of the sink if it refuses `s`, else `s` is appended. -/
def SinkWriter.WriteString (w : SinkWriter) (sink : Sink) (s : String) :
    SinkWriter × Option Error :=
  match w.err with
  | some err => (w, some err)
  | none =>
    match sink w.written s with
    | some err => (⟨w.written, w.flushed, some err⟩, some err)
    | none => (⟨w.written ++ s, false, none⟩, none)

/-- The body of the loop of `renderMarkers` for one marker, over `sink`. -/
def renderMarkerOn (sink : Sink) (_r : TextRenderer) (w : SinkWriter) (stack : markupStack)
    (marker : Marker) : SinkWriter × markupStack × Outcome :=
  let stack := marker.OpenMarkups.foldl markupStack.push stack
  match marker.Typ with
  | .TextMarker =>
    match w.WriteString sink marker.Text with
    | (w, some err) => (w, stack, .fail err)
    | (w, none) => (w, stack, .ok)
  | .AtomMarker =>
    match marker.Atom with
    | none => (w, stack, .nilPanic)
    | some atom =>
      match w.WriteString sink atom.Text with
      | (w, some err) => (w, stack, .fail err)
      | (w, none) => (w, stack, .ok)
  | .other _ => (w, stack, .ok)

/-- The loop of `renderMarkers` over `sink`, with the stack it maintains. -/
def renderMarkersLoopOn (sink : Sink) (r : TextRenderer) (w : SinkWriter) (stack : markupStack) :
    List Marker → SinkWriter × markupStack × Outcome
  | [] => (w, stack, .ok)
  | marker :: rest =>
    match renderMarkerOn sink r w stack marker with
    | (w, stack, .ok) => renderMarkersLoopOn sink r w stack rest
    | (w, stack, o) => (w, stack, o)

/-- `renderMarkers` over `sink`: a fresh stack, then the loop. -/
def renderMarkersOn (sink : Sink) (r : TextRenderer) (w : SinkWriter) (markers : List Marker) :
    SinkWriter × Outcome :=
  let res := renderMarkersLoopOn sink r w ⟨[]⟩ markers
  (res.1, res.2.2)

/-- The loop of `renderListSection` over the items, over `sink`. -/
def renderItemsOn (sink : Sink) (r : TextRenderer) (w : SinkWriter) :
    List (List Marker) → SinkWriter × Outcome
  | [] => (w, .ok)
  | item :: rest =>
    match renderMarkersOn sink r w item with
    | (w, .ok) => renderItemsOn sink r w rest
    | (w, o) => (w, o)

/-- `renderListSection` over `sink`. -/
def renderListSectionOn (sink : Sink) (r : TextRenderer) (w : SinkWriter) (sec : Section) :
    SinkWriter × Outcome :=
  renderItemsOn sink r w sec.Items

/-! ## General lemmas -/

theorem andThen_ok {F G : Writer → Writer × Outcome} {w w1 : Writer}
    (h : F w = (w1, .ok)) : andThen F G w = G w1 := by
  simp [andThen, h]

theorem andThen_stop {F G : Writer → Writer × Outcome} {w w1 : Writer} {o : Outcome}
    (h : F w = (w1, o)) (ho : o ≠ .ok) : andThen F G w = (w1, o) := by
  cases o with
  | ok => exact absurd rfl ho
  | fail e => simp [andThen, h]
  | nilPanic => simp [andThen, h]

theorem Appends.andThen {F G : Writer → Writer × Outcome} (hF : Appends F) (hG : Appends G) :
    Appends (andThen F G) := by
  obtain ⟨d1, o1, h1⟩ := hF
  obtain ⟨d2, o2, h2⟩ := hG
  cases o1 with
  | ok =>
    refine ⟨d1 ++ d2, o2, fun w => ?_⟩
    have hw : F w = ((F w).1, .ok) := Prod.ext rfl (h1 w).2
    rw [andThen_ok hw]
    refine ⟨?_, (h2 _).2⟩
    rw [(h2 _).1, (h1 w).1, String.append_assoc]
  | fail e =>
    refine ⟨d1, .fail e, fun w => ?_⟩
    have hw : F w = ((F w).1, .fail e) := Prod.ext rfl (h1 w).2
    rw [andThen_stop hw (by simp)]
    exact ⟨(h1 w).1, rfl⟩
  | nilPanic =>
    refine ⟨d1, .nilPanic, fun w => ?_⟩
    have hw : F w = ((F w).1, .nilPanic) := Prod.ext rfl (h1 w).2
    rw [andThen_stop hw (by simp)]
    exact ⟨(h1 w).1, rfl⟩

theorem Appends.shift {F : Writer → Writer × Outcome} (hF : Appends F) (w : Writer) :
    (F w).1.written = w.written ++ (F NewWriter).1.written ∧ (F w).2 = (F NewWriter).2 := by
  obtain ⟨d, o, h⟩ := hF
  have h0 := h NewWriter
  have hd : (F NewWriter).1.written = d := by
    rw [h0.1]; simp [NewWriter]
  rw [hd, h0.2]
  exact h w

/-! ## Markers -/

theorem renderMarker_congr (r r' : TextRenderer) (w : Writer) (st st' : markupStack)
    (m m' : Marker) (hT : m.Typ = m'.Typ) (hX : m.Text = m'.Text) (hA : m.Atom = m'.Atom) :
    (renderMarker r w st m).1 = (renderMarker r' w st' m').1 ∧
      (renderMarker r w st m).2.2 = (renderMarker r' w st' m').2.2 := by
  rcases m with ⟨T, O, C, X, A⟩
  rcases m' with ⟨T', O', C', X', A'⟩
  simp only at hT hX hA
  subst hT hX hA
  cases T with
  | TextMarker => simp [renderMarker, Writer.WriteString]
  | AtomMarker =>
    cases A with
    | none => simp [renderMarker]
    | some a => simp [renderMarker, Writer.WriteString]
  | other c => simp [renderMarker]

theorem renderMarkersLoop_map (r r' : TextRenderer) (f : Marker → Marker)
    (hf : ∀ m, (f m).Typ = m.Typ ∧ (f m).Text = m.Text ∧ (f m).Atom = m.Atom)
    (ms : List Marker) : ∀ (w : Writer) (st st' : markupStack),
    (renderMarkersLoop r w st (ms.map f)).1 = (renderMarkersLoop r' w st' ms).1 ∧
      (renderMarkersLoop r w st (ms.map f)).2.2 = (renderMarkersLoop r' w st' ms).2.2 := by
  induction ms with
  | nil => intro w st st'; simp [renderMarkersLoop]
  | cons m ms ih =>
    intro w st st'
    have h := renderMarker_congr r r' w st st' (f m) m (hf m).1 (hf m).2.1 (hf m).2.2
    rcases h1 : renderMarker r w st (f m) with ⟨w1, st1, o1⟩
    rcases h2 : renderMarker r' w st' m with ⟨w2, st2, o2⟩
    rw [h1, h2] at h
    simp only at h
    obtain ⟨hw, ho⟩ := h
    subst hw ho
    cases o1 with
    | ok => simpa [renderMarkersLoop, h1, h2] using ih w1 st1 st2
    | fail e => simp [renderMarkersLoop, h1, h2]
    | nilPanic => simp [renderMarkersLoop, h1, h2]

theorem renderMarkersLoop_indep (r r' : TextRenderer) (ms : List Marker) (w : Writer)
    (st st' : markupStack) :
    (renderMarkersLoop r w st ms).1 = (renderMarkersLoop r' w st' ms).1 ∧
      (renderMarkersLoop r w st ms).2.2 = (renderMarkersLoop r' w st' ms).2.2 := by
  have h := renderMarkersLoop_map r r' id (fun m => ⟨rfl, rfl, rfl⟩) ms w st st'
  simpa using h

theorem renderMarkers_nil (r : TextRenderer) (w : Writer) :
    renderMarkers r w [] = (w, .ok) := by
  simp [renderMarkers, renderMarkersLoop]

theorem renderMarkers_cons (r : TextRenderer) (w : Writer) (m : Marker) (ms : List Marker) :
    renderMarkers r w (m :: ms)
      = andThen (fun w => writeMarker r w m) (fun w => renderMarkers r w ms) w := by
  rcases h : renderMarker r w ⟨[]⟩ m with ⟨w1, st1, o⟩
  cases o with
  | ok =>
    have hi := renderMarkersLoop_indep r r ms w1 st1 ⟨[]⟩
    simp [renderMarkers, renderMarkersLoop, andThen, writeMarker, h, hi.1, hi.2]
  | fail e => simp [renderMarkers, renderMarkersLoop, andThen, writeMarker, h]
  | nilPanic => simp [renderMarkers, renderMarkersLoop, andThen, writeMarker, h]

theorem renderMarkers_append (r : TextRenderer) (xs ys : List Marker) : ∀ w : Writer,
    renderMarkers r w (xs ++ ys)
      = andThen (fun w => renderMarkers r w xs) (fun w => renderMarkers r w ys) w := by
  induction xs with
  | nil => intro w; simp [andThen, renderMarkers_nil]
  | cons x xs ih =>
    intro w
    have hc := renderMarkers_cons r w x xs
    rw [List.cons_append, renderMarkers_cons]
    rcases h : writeMarker r w x with ⟨w1, o⟩
    cases o with
    | ok =>
      rw [andThen_ok h] at hc ⊢
      rw [ih w1]
      simp [andThen, hc]
    | fail e =>
      rw [andThen_stop h (by simp)] at hc ⊢
      simp [andThen, hc]
    | nilPanic =>
      rw [andThen_stop h (by simp)] at hc ⊢
      simp [andThen, hc]

theorem writeMarker_appends (r : TextRenderer) (m : Marker) :
    Appends (fun w => writeMarker r w m) := by
  rcases m with ⟨T, O, C, X, A⟩
  cases T with
  | TextMarker =>
    exact ⟨X, .ok, fun w => by simp [writeMarker, renderMarker, Writer.WriteString]⟩
  | AtomMarker =>
    cases A with
    | none => exact ⟨"", .nilPanic, fun w => by simp [writeMarker, renderMarker]⟩
    | some a =>
      exact ⟨a.Text, .ok, fun w => by simp [writeMarker, renderMarker, Writer.WriteString]⟩
  | other c => exact ⟨"", .ok, fun w => by simp [writeMarker, renderMarker]⟩

theorem renderMarkers_appends (r : TextRenderer) (ms : List Marker) :
    Appends (fun w => renderMarkers r w ms) := by
  induction ms with
  | nil => exact ⟨"", .ok, fun w => by simp [renderMarkers_nil]⟩
  | cons m ms ih =>
    have h : (fun w => renderMarkers r w (m :: ms))
        = andThen (fun w => writeMarker r w m) (fun w => renderMarkers r w ms) :=
      funext (fun w => renderMarkers_cons r w m ms)
    rw [h]
    exact (writeMarker_appends r m).andThen ih

theorem andThen_ok_snd {F G : Writer → Writer × Outcome} {w : Writer}
    (h : (F w).2 = .ok) : andThen F G w = G (F w).1 :=
  andThen_ok (Prod.ext rfl h)

theorem andThen_stop_snd {F G : Writer → Writer × Outcome} {w : Writer}
    (h : (F w).2 ≠ .ok) : andThen F G w = F w :=
  andThen_stop rfl h

theorem concatText_append (xs ys : List String) :
    concatText (xs ++ ys) = concatText xs ++ concatText ys := by
  induction xs with
  | nil => simp [concatText]
  | cons x xs ih => simp [concatText, ih, String.append_assoc]

/-! ## Sections -/

theorem renderMarkupSection_eq (r : TextRenderer) (w : Writer) (sec : Section) :
    renderMarkupSection r w sec = renderMarkers r w sec.Markers := by
  unfold renderMarkupSection
  rcases renderMarkers r w sec.Markers with ⟨w1, o⟩
  cases o <;> rfl

theorem renderItems_cons (r : TextRenderer) (w : Writer) (item : List Marker)
    (rest : List (List Marker)) :
    renderItems r w (item :: rest)
      = andThen (fun w => renderMarkers r w item) (fun w => renderItems r w rest) w := by
  rfl

theorem renderItems_appends (r : TextRenderer) (items : List (List Marker)) :
    Appends (fun w => renderItems r w items) := by
  induction items with
  | nil => exact ⟨"", .ok, fun w => by simp [renderItems]⟩
  | cons item rest ih =>
    have h : (fun w => renderItems r w (item :: rest))
        = andThen (fun w => renderMarkers r w item) (fun w => renderItems r w rest) :=
      funext (fun w => renderItems_cons r w item rest)
    rw [h]
    exact (renderMarkers_appends r item).andThen ih

theorem renderImageSection_appends {U : Type} (url : UrlLib U) (r : TextRenderer)
    (sec : Section) : Appends (fun w => renderImageSection url r w sec) := by
  cases h : url.Parse sec.Source with
  | error e => exact ⟨"", .fail e, fun w => by simp [renderImageSection, h]⟩
  | ok src =>
    exact ⟨" " ++ url.Str src ++ " ", .ok, fun w => by
      simp [renderImageSection, h, Writer.WriteString]⟩

theorem renderCardSection_appends (r : TextRenderer) (sec : Section) :
    Appends (fun w => renderCardSection r w sec) := by
  cases hc : sec.Card with
  | none => exact ⟨"", .nilPanic, fun w => by simp [renderCardSection, hc]⟩
  | some card =>
    cases hr : r.Cards card.Name with
    | none =>
      exact ⟨"", .fail "missing card renderer", fun w => by simp [renderCardSection, hc, hr]⟩
    | some f =>
      cases he : (f card.Payload).2 with
      | none =>
        exact ⟨(f card.Payload).1, .ok, fun w => by
          simp [renderCardSection, hc, hr, Writer.call, he]⟩
      | some e =>
        exact ⟨(f card.Payload).1, .fail e, fun w => by
          simp [renderCardSection, hc, hr, Writer.call, he]⟩

theorem renderSection_appends {U : Type} (url : UrlLib U) (r : TextRenderer) (sec : Section) :
    Appends (fun w => renderSection url r w sec) := by
  cases h : sec.Typ with
  | MarkupSection =>
    have e : (fun w => renderSection url r w sec) = fun w => renderMarkers r w sec.Markers :=
      funext (fun w => by simp [renderSection, h, renderMarkupSection_eq])
    rw [e]; exact renderMarkers_appends r sec.Markers
  | ImageSection =>
    have e : (fun w => renderSection url r w sec) = fun w => renderImageSection url r w sec :=
      funext (fun w => by simp [renderSection, h])
    rw [e]; exact renderImageSection_appends url r sec
  | ListSection =>
    have e : (fun w => renderSection url r w sec) = fun w => renderItems r w sec.Items :=
      funext (fun w => by simp [renderSection, h, renderListSection])
    rw [e]; exact renderItems_appends r sec.Items
  | CardSection =>
    have e : (fun w => renderSection url r w sec) = fun w => renderCardSection r w sec :=
      funext (fun w => by simp [renderSection, h])
    rw [e]; exact renderCardSection_appends r sec
  | other c => exact ⟨"", .ok, fun w => by simp [renderSection, h]⟩

theorem renderSections_cons {U : Type} (url : UrlLib U) (r : TextRenderer) (w : Writer)
    (sec : Section) (rest : List Section) :
    renderSections url r w (sec :: rest)
      = andThen (fun w => renderSection url r w sec) (fun w => renderSections url r w rest) w := by
  rfl

theorem renderSections_append {U : Type} (url : UrlLib U) (r : TextRenderer)
    (xs ys : List Section) : ∀ w : Writer,
    renderSections url r w (xs ++ ys)
      = andThen (fun w => renderSections url r w xs) (fun w => renderSections url r w ys) w := by
  induction xs with
  | nil => intro w; simp [andThen, renderSections]
  | cons x xs ih =>
    intro w
    have hc := renderSections_cons url r w x xs
    rw [List.cons_append, renderSections_cons]
    rcases h : renderSection url r w x with ⟨w1, o⟩
    cases o with
    | ok =>
      rw [andThen_ok h] at hc ⊢
      rw [ih w1]
      simp [andThen, hc]
    | fail e =>
      rw [andThen_stop h (by simp)] at hc ⊢
      simp [andThen, hc]
    | nilPanic =>
      rw [andThen_stop h (by simp)] at hc ⊢
      simp [andThen, hc]

theorem renderSections_appends {U : Type} (url : UrlLib U) (r : TextRenderer)
    (secs : List Section) : Appends (fun w => renderSections url r w secs) := by
  induction secs with
  | nil => exact ⟨"", .ok, fun w => by simp [renderSections]⟩
  | cons sec rest ih =>
    have h : (fun w => renderSections url r w (sec :: rest))
        = andThen (fun w => renderSection url r w sec)
            (fun w => renderSections url r w rest) :=
      funext (fun w => renderSections_cons url r w sec rest)
    rw [h]
    exact (renderSection_appends url r sec).andThen ih

theorem Render_of_ok {U : Type} (url : UrlLib U) (r : TextRenderer) (doc : Document)
    (h : (renderSections url r NewWriter doc.Sections).2 = .ok) :
    Render url r doc
      = (⟨(renderSections url r NewWriter doc.Sections).1.written, true⟩, .ok) := by
  rcases hs : renderSections url r NewWriter doc.Sections with ⟨w1, o⟩
  rw [hs] at h
  simp only at h
  subst h
  simp [Render, hs, Writer.Flush]

theorem Render_of_stop {U : Type} (url : UrlLib U) (r : TextRenderer) (doc : Document)
    (h : (renderSections url r NewWriter doc.Sections).2 ≠ .ok) :
    Render url r doc = renderSections url r NewWriter doc.Sections := by
  rcases hs : renderSections url r NewWriter doc.Sections with ⟨w1, o⟩
  rw [hs] at h
  cases o with
  | ok => exact absurd rfl h
  | fail e => simp [Render, hs]
  | nilPanic => simp [Render, hs]

/-! ## Documents of plain text -/

theorem writeMarker_text (r : TextRenderer) (w : Writer) (m : Marker)
    (h : m.Typ = .TextMarker) : writeMarker r w m = (⟨w.written ++ m.Text, false⟩, .ok) := by
  simp [writeMarker, renderMarker, h, Writer.WriteString]

theorem renderMarkers_text (r : TextRenderer) (ms : List Marker) : ∀ w : Writer,
    (∀ m ∈ ms, m.Typ = .TextMarker) →
    (renderMarkers r w ms).1.written = w.written ++ concatText (ms.map Marker.Text) ∧
      (renderMarkers r w ms).2 = .ok := by
  induction ms with
  | nil => intro w _; simp [renderMarkers_nil, concatText]
  | cons m ms ih =>
    intro w h
    have hm := writeMarker_text r w m (h m (List.mem_cons_self m ms))
    have hi := ih ⟨w.written ++ m.Text, false⟩ (fun x hx => h x (List.mem_cons_of_mem m hx))
    rw [renderMarkers_cons, andThen_ok hm]
    refine ⟨?_, hi.2⟩
    rw [hi.1]
    simp [concatText, String.append_assoc]

theorem renderItems_text (r : TextRenderer) (items : List (List Marker)) : ∀ w : Writer,
    (∀ item ∈ items, ∀ m ∈ item, m.Typ = .TextMarker) →
    (renderItems r w items).1.written
        = w.written ++ concatText (items.flatten.map Marker.Text) ∧
      (renderItems r w items).2 = .ok := by
  induction items with
  | nil => intro w _; simp [renderItems, concatText]
  | cons item rest ih =>
    intro w h
    have hm := renderMarkers_text r item w (h item (List.mem_cons_self item rest))
    have hi := ih (renderMarkers r w item).1 (fun x hx => h x (List.mem_cons_of_mem item hx))
    rw [renderItems_cons, andThen_ok_snd hm.2]
    refine ⟨?_, hi.2⟩
    rw [hi.1, hm.1]
    simp [concatText_append, String.append_assoc]

theorem renderSection_text {U : Type} (url : UrlLib U) (r : TextRenderer) (w : Writer)
    (sec : Section) (hT : sec.Typ = .MarkupSection ∨ sec.Typ = .ListSection)
    (hM : ∀ m ∈ sectionMarkers sec, m.Typ = .TextMarker) :
    (renderSection url r w sec).1.written
        = w.written ++ concatText ((sectionMarkers sec).map Marker.Text) ∧
      (renderSection url r w sec).2 = .ok := by
  rcases hT with hT | hT
  · have hM2 : ∀ m ∈ sec.Markers, m.Typ = .TextMarker := by
      simpa [sectionMarkers, hT] using hM
    simpa [renderSection, sectionMarkers, hT, renderMarkupSection_eq]
      using renderMarkers_text r sec.Markers w hM2
  · have hI : ∀ item ∈ sec.Items, ∀ m ∈ item, m.Typ = .TextMarker := by
      intro item hi m hm
      apply hM m
      simp only [sectionMarkers, hT, List.mem_flatten]
      exact ⟨item, hi, hm⟩
    simpa [renderSection, sectionMarkers, hT, renderListSection]
      using renderItems_text r sec.Items w hI

theorem renderSections_text {U : Type} (url : UrlLib U) (r : TextRenderer)
    (secs : List Section) : ∀ w : Writer,
    (∀ sec ∈ secs, (sec.Typ = .MarkupSection ∨ sec.Typ = .ListSection) ∧
      (∀ m ∈ sectionMarkers sec, m.Typ = .TextMarker)) →
    (renderSections url r w secs).1.written
        = w.written ++ concatText ((secs.flatMap sectionMarkers).map Marker.Text) ∧
      (renderSections url r w secs).2 = .ok := by
  induction secs with
  | nil => intro w _; simp [renderSections, concatText]
  | cons sec rest ih =>
    intro w h
    obtain ⟨hT, hM⟩ := h sec (List.mem_cons_self sec rest)
    have hm := renderSection_text url r w sec hT hM
    have hi := ih (renderSection url r w sec).1
      (fun x hx => h x (List.mem_cons_of_mem sec hx))
    rw [renderSections_cons, andThen_ok_snd hm.2]
    refine ⟨?_, hi.2⟩
    rw [hi.1, hm.1]
    simp [List.flatMap_cons, concatText_append, String.append_assoc]

/-! ## Loops that stop at the first failure -/

theorem seqAll_all_ok {α : Type} (F : α → Writer → Writer × Outcome)
    (hA : ∀ x, Appends (F x)) (xs : List α) : ∀ w : Writer,
    (∀ x ∈ xs, (F x NewWriter).2 = .ok) →
    (seqAll F xs w).1.written
        = w.written ++ concatText (xs.map (fun x => (F x NewWriter).1.written)) ∧
      (seqAll F xs w).2 = .ok := by
  induction xs with
  | nil => intro w _; simp [seqAll, concatText]
  | cons x xs ih =>
    intro w h
    have hx := (hA x).shift w
    have hok : (F x w).2 = .ok := by rw [hx.2]; exact h x (List.mem_cons_self x xs)
    have hi := ih (F x w).1 (fun y hy => h y (List.mem_cons_of_mem x hy))
    show (andThen (F x) (seqAll F xs) w).1.written = _ ∧ (andThen (F x) (seqAll F xs) w).2 = _
    rw [andThen_ok_snd hok]
    refine ⟨?_, hi.2⟩
    rw [hi.1, hx.1]
    simp [concatText, String.append_assoc]

theorem seqAll_append {α : Type} (F : α → Writer → Writer × Outcome) (xs ys : List α) :
    ∀ w : Writer, seqAll F (xs ++ ys) w = andThen (seqAll F xs) (seqAll F ys) w := by
  induction xs with
  | nil => intro w; simp [seqAll, andThen]
  | cons x xs ih =>
    intro w
    show andThen (F x) (seqAll F (xs ++ ys)) w
      = andThen (andThen (F x) (seqAll F xs)) (seqAll F ys) w
    rcases h : F x w with ⟨w1, o⟩
    cases o with
    | ok =>
      rw [andThen_ok h, ih w1]
      simp [andThen, h]
    | fail e =>
      rw [andThen_stop h (by simp)]
      simp [andThen, h]
    | nilPanic =>
      rw [andThen_stop h (by simp)]
      simp [andThen, h]

theorem seqAll_first_stop {α : Type} (F : α → Writer → Writer × Outcome)
    (hA : ∀ x, Appends (F x)) (pre post : List α) (x : α) (o : Outcome) (w : Writer)
    (hpre : ∀ y ∈ pre, (F y NewWriter).2 = .ok)
    (hx : (F x NewWriter).2 = o) (ho : o ≠ .ok) :
    (seqAll F (pre ++ x :: post) w).1.written
        = w.written ++ concatText (pre.map (fun y => (F y NewWriter).1.written))
            ++ (F x NewWriter).1.written ∧
      (seqAll F (pre ++ x :: post) w).2 = o := by
  have hp := seqAll_all_ok F hA pre w hpre
  rw [seqAll_append, andThen_ok_snd hp.2]
  have hs := (hA x).shift (seqAll F pre w).1
  have hne : (F x (seqAll F pre w).1).2 ≠ .ok := by rw [hs.2, hx]; exact ho
  show (andThen (F x) (seqAll F post) (seqAll F pre w).1).1.written = _ ∧
    (andThen (F x) (seqAll F post) (seqAll F pre w).1).2 = _
  rw [andThen_stop_snd hne]
  refine ⟨?_, by rw [hs.2, hx]⟩
  rw [hs.1, hp.1]

theorem renderItems_eq_seqAll (r : TextRenderer) (items : List (List Marker)) :
    ∀ w : Writer, renderItems r w items
      = seqAll (fun item w => renderMarkers r w item) items w := by
  induction items with
  | nil => intro w; rfl
  | cons item rest ih =>
    intro w
    rw [renderItems_cons]
    show _ = andThen _ (seqAll _ rest) w
    rcases h : renderMarkers r w item with ⟨w1, o⟩
    cases o <;> simp [andThen, h, ih]

theorem renderSections_eq_seqAll {U : Type} (url : UrlLib U) (r : TextRenderer)
    (secs : List Section) : ∀ w : Writer, renderSections url r w secs
      = seqAll (fun sec w => renderSection url r w sec) secs w := by
  induction secs with
  | nil => intro w; rfl
  | cons sec rest ih =>
    intro w
    rw [renderSections_cons]
    show _ = andThen _ (seqAll _ rest) w
    rcases h : renderSection url r w sec with ⟨w1, o⟩
    cases o <;> simp [andThen, h, ih]

/-! ## Atom markers -/

theorem writeMarker_atom (r : TextRenderer) (w : Writer) (m : Marker) (a : Atom)
    (hT : m.Typ = .AtomMarker) (hA : m.Atom = some a) :
    writeMarker r w m = (⟨w.written ++ a.Text, false⟩, .ok) := by
  simp [writeMarker, renderMarker, hT, hA, Writer.WriteString]

theorem renderMarkers_atom_at (r : TextRenderer) (w w1 : Writer) (pre post : List Marker)
    (m : Marker) (a : Atom) (hT : m.Typ = .AtomMarker) (hA : m.Atom = some a)
    (hpre : renderMarkers r w pre = (w1, .ok)) :
    renderMarkers r w (pre ++ m :: post)
      = renderMarkers r ⟨w1.written ++ a.Text, false⟩ post := by
  have h1 : (fun w => renderMarkers r w pre) w = (w1, .ok) := hpre
  have h2 : (fun w => writeMarker r w m) w1 = (⟨w1.written ++ a.Text, false⟩, .ok) :=
    writeMarker_atom r w1 m a hT hA
  rw [renderMarkers_append, andThen_ok h1, renderMarkers_cons, andThen_ok h2]

theorem renderMarkers_registry (r r' : TextRenderer) (w : Writer) (ms : List Marker) :
    renderMarkers r w ms = renderMarkers r' w ms := by
  have h := renderMarkersLoop_indep r r' ms w ⟨[]⟩ ⟨[]⟩
  exact Prod.ext h.1 h.2

theorem writeMarker_no_fail (r : TextRenderer) (w : Writer) (m : Marker) (e : Error) :
    (writeMarker r w m).2 ≠ .fail e := by
  rcases m with ⟨T, O, C, X, A⟩
  cases T with
  | TextMarker => simp [writeMarker, renderMarker, Writer.WriteString]
  | AtomMarker =>
    cases A with
    | none => simp [writeMarker, renderMarker]
    | some a => simp [writeMarker, renderMarker, Writer.WriteString]
  | other c => simp [writeMarker, renderMarker]

theorem renderMarkers_no_fail (r : TextRenderer) (ms : List Marker) : ∀ (w : Writer) (e : Error),
    (renderMarkers r w ms).2 ≠ .fail e := by
  induction ms with
  | nil => intro w e; simp [renderMarkers_nil]
  | cons m ms ih =>
    intro w e
    rw [renderMarkers_cons]
    by_cases h : (writeMarker r w m).2 = .ok
    · have h1 : ((fun w => writeMarker r w m) w).2 = .ok := h
      rw [andThen_ok_snd h1]
      exact ih _ e
    · have h1 : ((fun w => writeMarker r w m) w).2 ≠ .ok := h
      rw [andThen_stop_snd h1]
      exact writeMarker_no_fail r w m e

/-! ## Render and the loop over the sections -/

theorem Render_proj {U : Type} (url : UrlLib U) (r : TextRenderer) (doc : Document) :
    (Render url r doc).1.written = (renderSections url r NewWriter doc.Sections).1.written ∧
      (Render url r doc).2 = (renderSections url r NewWriter doc.Sections).2 := by
  by_cases h : (renderSections url r NewWriter doc.Sections).2 = .ok
  · rw [Render_of_ok url r doc h, h]; exact ⟨rfl, rfl⟩
  · rw [Render_of_stop url r doc h]; exact ⟨rfl, rfl⟩

theorem renderSections_all_ok {U : Type} (url : UrlLib U) (r : TextRenderer)
    (secs : List Section) (w : Writer)
    (h : ∀ sec ∈ secs, (renderSection url r NewWriter sec).2 = .ok) :
    (renderSections url r w secs).1.written
        = w.written
            ++ concatText (secs.map (fun sec => (renderSection url r NewWriter sec).1.written)) ∧
      (renderSections url r w secs).2 = .ok := by
  rw [renderSections_eq_seqAll]
  exact seqAll_all_ok (fun sec w => renderSection url r w sec)
    (fun sec => renderSection_appends url r sec) secs w h

theorem renderSections_first_stop {U : Type} (url : UrlLib U) (r : TextRenderer)
    (pre post : List Section) (sec : Section) (o : Outcome) (w : Writer)
    (hpre : ∀ x ∈ pre, (renderSection url r NewWriter x).2 = .ok)
    (hsec : (renderSection url r NewWriter sec).2 = o) (ho : o ≠ .ok) :
    (renderSections url r w (pre ++ sec :: post)).1.written
        = w.written
            ++ concatText (pre.map (fun x => (renderSection url r NewWriter x).1.written))
            ++ (renderSection url r NewWriter sec).1.written ∧
      (renderSections url r w (pre ++ sec :: post)).2 = o := by
  rw [renderSections_eq_seqAll]
  exact seqAll_first_stop (fun sec w => renderSection url r w sec)
    (fun sec => renderSection_appends url r sec) pre post sec o w hpre hsec ho

theorem renderSection_card {U : Type} (url : UrlLib U) (r : TextRenderer) (w : Writer)
    (sec : Section) (card : Card) (f : CardFn)
    (hT : sec.Typ = .CardSection) (hC : sec.Card = some card)
    (hreg : r.Cards card.Name = some f) :
    renderSection url r w sec
      = (⟨w.written ++ (f card.Payload).1, false⟩, Outcome.ofError (f card.Payload).2) := by
  cases he : (f card.Payload).2 <;>
    simp [renderSection, hT, renderCardSection, hC, hreg, Writer.call, he, Outcome.ofError]

theorem renderSection_card_missing {U : Type} (url : UrlLib U) (r : TextRenderer) (w : Writer)
    (sec : Section) (card : Card)
    (hT : sec.Typ = .CardSection) (hC : sec.Card = some card)
    (hreg : r.Cards card.Name = none) :
    renderSection url r w sec = (w, .fail "missing card renderer") := by
  simp [renderSection, hT, renderCardSection, hC, hreg]

theorem Render_stops_at {U : Type} (url : UrlLib U) (r : TextRenderer) (doc : Document)
    (pre post : List Section) (sec : Section)
    (hdoc : doc.Sections = pre ++ sec :: post)
    (hpre : ∀ x ∈ pre, (renderSection url r NewWriter x).2 = .ok)
    (hsec : (renderSection url r NewWriter sec).2 ≠ .ok) :
    Render url r doc = Render url r { doc with Sections := pre ++ [sec] } := by
  have hp := renderSections_all_ok url r pre NewWriter hpre
  have h1 : ((fun w => renderSections url r w pre) NewWriter).2 = .ok := hp.2
  have hsh := ((renderSection_appends url r sec).shift (renderSections url r NewWriter pre).1).2
  have h2 : ((fun w => renderSection url r w sec) (renderSections url r NewWriter pre).1).2
      ≠ .ok := by
    rw [← hsh] at hsec; exact hsec
  have e1 : ∀ post2 : List Section, renderSections url r NewWriter (pre ++ sec :: post2)
      = renderSection url r (renderSections url r NewWriter pre).1 sec := by
    intro post2
    rw [renderSections_append url r pre (sec :: post2) NewWriter, andThen_ok_snd h1,
      renderSections_cons, andThen_stop_snd h2]
  have hne : ∀ post2 : List Section,
      (renderSections url r NewWriter (pre ++ sec :: post2)).2 ≠ .ok := by
    intro post2; rw [e1 post2]; exact h2
  have hne2 : (renderSections url r NewWriter
      ({ doc with Sections := pre ++ [sec] } : Document).Sections).2 ≠ .ok := hne []
  rw [Render_of_stop url r _ hne2, Render_of_stop url r doc (by rw [hdoc]; exact hne post), hdoc]
  show renderSections url r NewWriter (pre ++ sec :: post)
    = renderSections url r NewWriter (pre ++ [sec])
  rw [e1 post, e1 []]

/-! ## The markup stack -/

theorem foldl_push_depth (opens : List Markup) : ∀ st : markupStack,
    (opens.foldl markupStack.push st).depth = st.depth + opens.length := by
  induction opens with
  | nil => intro st; simp
  | cons x xs ih =>
    intro st
    rw [List.foldl_cons, ih]
    simp [markupStack.push, markupStack.depth]
    omega

theorem renderMarker_stack (r : TextRenderer) (w : Writer) (st : markupStack) (m : Marker) :
    (renderMarker r w st m).2.1 = m.OpenMarkups.foldl markupStack.push st := by
  rcases m with ⟨T, O, C, X, A⟩
  cases T with
  | TextMarker => simp [renderMarker, Writer.WriteString]
  | AtomMarker =>
    cases A with
    | none => simp [renderMarker]
    | some a => simp [renderMarker, Writer.WriteString]
  | other c => simp [renderMarker]

theorem renderMarkersLoop_depth (r : TextRenderer) (ms : List Marker) :
    ∀ (w : Writer) (st : markupStack), (renderMarkersLoop r w st ms).2.2 = .ok →
    (renderMarkersLoop r w st ms).2.1.depth = st.depth + openCount ms := by
  induction ms with
  | nil => intro w st _; simp [renderMarkersLoop, openCount]
  | cons m ms ih =>
    intro w st hok
    have hst := renderMarker_stack r w st m
    rcases h : renderMarker r w st m with ⟨w1, st1, o⟩
    rw [h] at hst
    simp only at hst
    cases o with
    | ok =>
      have e : renderMarkersLoop r w st (m :: ms) = renderMarkersLoop r w1 st1 ms := by
        simp [renderMarkersLoop, h]
      rw [e] at hok ⊢
      rw [ih w1 st1 hok, hst, foldl_push_depth]
      simp [openCount]
      omega
    | fail e => simp [renderMarkersLoop, h] at hok
    | nilPanic => simp [renderMarkersLoop, h] at hok

theorem renderMarkersLoop_append (r : TextRenderer) (xs ys : List Marker) :
    ∀ (w : Writer) (st : markupStack), (renderMarkersLoop r w st xs).2.2 = .ok →
    renderMarkersLoop r w st (xs ++ ys)
      = renderMarkersLoop r (renderMarkersLoop r w st xs).1 (renderMarkersLoop r w st xs).2.1 ys := by
  induction xs with
  | nil => intro w st _; simp [renderMarkersLoop]
  | cons x xs ih =>
    intro w st hok
    rcases h : renderMarker r w st x with ⟨w1, st1, o⟩
    cases o with
    | ok =>
      have e : ∀ zs, renderMarkersLoop r w st (x :: zs) = renderMarkersLoop r w1 st1 zs := by
        intro zs; simp [renderMarkersLoop, h]
      rw [e] at hok
      rw [List.cons_append, e, e, ih w1 st1 hok]
    | fail e => simp [renderMarkersLoop, h] at hok
    | nilPanic => simp [renderMarkersLoop, h] at hok

/-! ## Errors and nil references -/

theorem writeMarker_present (r : TextRenderer) (w : Writer) (m : Marker)
    (h : m.Typ = .AtomMarker → m.Atom ≠ none) : (writeMarker r w m).2 = .ok := by
  rcases m with ⟨T, O, C, X, A⟩
  cases T with
  | TextMarker => simp [writeMarker, renderMarker, Writer.WriteString]
  | AtomMarker =>
    cases A with
    | none => exact absurd rfl (h rfl)
    | some a => simp [writeMarker, renderMarker, Writer.WriteString]
  | other c => simp [writeMarker, renderMarker]

theorem renderMarkers_present (r : TextRenderer) (ms : List Marker) : ∀ w : Writer,
    (∀ m ∈ ms, m.Typ = .AtomMarker → m.Atom ≠ none) → (renderMarkers r w ms).2 = .ok := by
  induction ms with
  | nil => intro w _; simp [renderMarkers_nil]
  | cons m ms ih =>
    intro w h
    have h1 : ((fun w => writeMarker r w m) w).2 = .ok :=
      writeMarker_present r w m (h m (List.mem_cons_self m ms))
    rw [renderMarkers_cons, andThen_ok_snd h1]
    exact ih _ (fun x hx => h x (List.mem_cons_of_mem m hx))

theorem renderItems_present (r : TextRenderer) (items : List (List Marker)) : ∀ w : Writer,
    (∀ item ∈ items, ∀ m ∈ item, m.Typ = .AtomMarker → m.Atom ≠ none) →
    (renderItems r w items).2 = .ok := by
  induction items with
  | nil => intro w _; simp [renderItems]
  | cons item rest ih =>
    intro w h
    have h1 : ((fun w => renderMarkers r w item) w).2 = .ok :=
      renderMarkers_present r item w (h item (List.mem_cons_self item rest))
    rw [renderItems_cons, andThen_ok_snd h1]
    exact ih _ (fun x hx => h x (List.mem_cons_of_mem item hx))

theorem renderSection_refs {U : Type} (url : UrlLib U) (r : TextRenderer) (w : Writer)
    (sec : Section) (h : sectionRefsPresent sec) :
    ((renderSection url r w sec).2 = .ok ∧ ¬ badSection url r sec) ∨
      (∃ e, (renderSection url r w sec).2 = .fail e) ∧ badSection url r sec := by
  obtain ⟨hC, hM⟩ := h
  cases hT : sec.Typ with
  | MarkupSection =>
    left
    refine ⟨?_, by simp [badSection, hT]⟩
    have hM2 : ∀ m ∈ sec.Markers, m.Typ = .AtomMarker → m.Atom ≠ none := by
      simpa [sectionMarkers, hT] using hM
    simpa [renderSection, hT, renderMarkupSection_eq]
      using renderMarkers_present r sec.Markers w hM2
  | ListSection =>
    left
    refine ⟨?_, by simp [badSection, hT]⟩
    have hI : ∀ item ∈ sec.Items, ∀ m ∈ item, m.Typ = .AtomMarker → m.Atom ≠ none := by
      intro item hi m hm
      apply hM m
      simp only [sectionMarkers, hT, List.mem_flatten]
      exact ⟨item, hi, hm⟩
    simpa [renderSection, hT, renderListSection] using renderItems_present r sec.Items w hI
  | other c =>
    left
    exact ⟨by simp [renderSection, hT], by simp [badSection, hT]⟩
  | ImageSection =>
    cases hp : url.Parse sec.Source with
    | error e =>
      right
      exact ⟨⟨e, by simp [renderSection, hT, renderImageSection, hp]⟩,
        Or.inl ⟨hT, e, hp⟩⟩
    | ok u =>
      left
      exact ⟨by simp [renderSection, hT, renderImageSection, hp, Writer.WriteString],
        by simp [badSection, hT, hp]⟩
  | CardSection =>
    cases hc : sec.Card with
    | none => exact absurd hc (hC hT)
    | some card =>
      cases hr : r.Cards card.Name with
      | none =>
        right
        exact ⟨⟨"missing card renderer", by simp [renderSection, hT, renderCardSection, hc, hr]⟩,
          Or.inr (Or.inl ⟨hT, card, hc, hr⟩)⟩
      | some f =>
        cases he : (f card.Payload).2 with
        | none =>
          left
          exact ⟨by simp [renderSection, hT, renderCardSection, hc, hr, Writer.call, he],
            by simp [badSection, hT, hc, hr, he]⟩
        | some e =>
          right
          exact ⟨⟨e, by simp [renderSection, hT, renderCardSection, hc, hr, Writer.call, he]⟩,
            Or.inr (Or.inr ⟨hT, card, f, e, hc, hr, he⟩)⟩

theorem renderSections_refs {U : Type} (url : UrlLib U) (r : TextRenderer)
    (secs : List Section) : ∀ w : Writer, (∀ sec ∈ secs, sectionRefsPresent sec) →
    ((renderSections url r w secs).2 = .ok ∧ ∀ sec ∈ secs, ¬ badSection url r sec) ∨
      (∃ e, (renderSections url r w secs).2 = .fail e) ∧ ∃ sec ∈ secs, badSection url r sec := by
  induction secs with
  | nil => intro w _; left; simp [renderSections]
  | cons sec rest ih =>
    intro w h
    rcases renderSection_refs url r w sec (h sec (List.mem_cons_self sec rest)) with
      ⟨hok, hnb⟩ | ⟨⟨e, he⟩, hb⟩
    · have h1 : ((fun w => renderSection url r w sec) w).2 = .ok := hok
      rw [renderSections_cons, andThen_ok_snd h1]
      rcases ih (renderSection url r w sec).1 (fun x hx => h x (List.mem_cons_of_mem sec hx)) with
        ⟨hok2, hnb2⟩ | ⟨hf, x, hx, hbx⟩
      · left
        refine ⟨hok2, ?_⟩
        intro x hx
        rcases List.mem_cons.1 hx with rfl | hx
        · exact hnb
        · exact hnb2 x hx
      · right
        exact ⟨hf, x, List.mem_cons_of_mem sec hx, hbx⟩
    · right
      have h1 : ((fun w => renderSection url r w sec) w).2 ≠ .ok := by
        show (renderSection url r w sec).2 ≠ .ok
        rw [he]; simp
      rw [renderSections_cons, andThen_stop_snd h1]
      exact ⟨⟨e, he⟩, sec, List.mem_cons_self sec rest, hb⟩

theorem renderSection_cards {U : Type} (url : UrlLib U) (r1 r2 : TextRenderer)
    (hC : r1.Cards = r2.Cards) (w : Writer) (sec : Section) :
    renderSection url r1 w sec = renderSection url r2 w sec := by
  cases hT : sec.Typ with
  | MarkupSection =>
    simp [renderSection, hT, renderMarkupSection_eq, renderMarkers_registry r1 r2]
  | ImageSection => simp [renderSection, hT, renderImageSection]
  | ListSection =>
    have h : ∀ (items : List (List Marker)) (w : Writer),
        renderItems r1 w items = renderItems r2 w items := by
      intro items
      induction items with
      | nil => intro w; rfl
      | cons item rest ih =>
        intro w
        rw [renderItems_cons, renderItems_cons]
        simp [andThen, renderMarkers_registry r1 r2, ih]
    simp [renderSection, hT, renderListSection, h]
  | CardSection => simp [renderSection, hT, renderCardSection, hC]
  | other c => simp [renderSection, hT]

theorem renderSections_cards {U : Type} (url : UrlLib U) (r1 r2 : TextRenderer)
    (hC : r1.Cards = r2.Cards) (secs : List Section) : ∀ w : Writer,
    renderSections url r1 w secs = renderSections url r2 w secs := by
  induction secs with
  | nil => intro w; rfl
  | cons sec rest ih =>
    intro w
    rw [renderSections_cons, renderSections_cons]
    simp [andThen, renderSection_cards url r1 r2 hC, ih]

/-! ## The list section over a sink that may refuse a write -/

theorem renderMarkerOn_acceptAll (r : TextRenderer) (w : Writer) (st : markupStack)
    (m : Marker) :
    renderMarkerOn acceptAll r w.over st m
      = ((renderMarker r w st m).1.over, (renderMarker r w st m).2.1,
          (renderMarker r w st m).2.2) := by
  rcases m with ⟨T, O, C, X, A⟩
  cases T with
  | TextMarker =>
    simp [renderMarkerOn, renderMarker, SinkWriter.WriteString, Writer.WriteString,
      Writer.over, acceptAll]
  | AtomMarker =>
    cases A with
    | none => simp [renderMarkerOn, renderMarker]
    | some a =>
      simp [renderMarkerOn, renderMarker, SinkWriter.WriteString, Writer.WriteString,
        Writer.over, acceptAll]
  | other c => simp [renderMarkerOn, renderMarker]

theorem renderMarkersLoopOn_acceptAll (r : TextRenderer) (ms : List Marker) :
    ∀ (w : Writer) (st : markupStack),
    renderMarkersLoopOn acceptAll r w.over st ms
      = ((renderMarkersLoop r w st ms).1.over, (renderMarkersLoop r w st ms).2.1,
          (renderMarkersLoop r w st ms).2.2) := by
  induction ms with
  | nil => intro w st; simp [renderMarkersLoopOn, renderMarkersLoop]
  | cons m ms ih =>
    intro w st
    have h := renderMarkerOn_acceptAll r w st m
    rcases h1 : renderMarker r w st m with ⟨w1, st1, o⟩
    rw [h1] at h
    simp only at h
    cases o with
    | ok => simp [renderMarkersLoopOn, renderMarkersLoop, h, h1, ih]
    | fail e => simp [renderMarkersLoopOn, renderMarkersLoop, h, h1]
    | nilPanic => simp [renderMarkersLoopOn, renderMarkersLoop, h, h1]

theorem renderMarkersOn_acceptAll (r : TextRenderer) (w : Writer) (ms : List Marker) :
    renderMarkersOn acceptAll r w.over ms
      = ((renderMarkers r w ms).1.over, (renderMarkers r w ms).2) := by
  simp [renderMarkersOn, renderMarkers, renderMarkersLoopOn_acceptAll]

theorem renderItemsOn_acceptAll (r : TextRenderer) (items : List (List Marker)) :
    ∀ w : Writer, renderItemsOn acceptAll r w.over items
      = ((renderItems r w items).1.over, (renderItems r w items).2) := by
  induction items with
  | nil => intro w; simp [renderItemsOn, renderItems]
  | cons item rest ih =>
    intro w
    have h := renderMarkersOn_acceptAll r w item
    rcases h1 : renderMarkers r w item with ⟨w1, o⟩
    rw [h1] at h
    simp only at h
    cases o with
    | ok => simp [renderItemsOn, renderItems, h, h1, ih]
    | fail e => simp [renderItemsOn, renderItems, h, h1]
    | nilPanic => simp [renderItemsOn, renderItems, h, h1]

theorem renderItemsOn_stop (sink : Sink) (r : TextRenderer) (pre post : List (List Marker))
    (item : List Marker) : ∀ (w w1 w2 : SinkWriter) (o : Outcome),
    renderItemsOn sink r w pre = (w1, .ok) → renderMarkersOn sink r w1 item = (w2, o) →
    o ≠ .ok → renderItemsOn sink r w (pre ++ item :: post) = (w2, o) := by
  induction pre with
  | nil =>
    intro w w1 w2 o hpre hitem ho
    simp only [renderItemsOn, Prod.mk.injEq, and_true] at hpre
    subst hpre
    cases o with
    | ok => exact absurd rfl ho
    | fail e => simp [renderItemsOn, hitem]
    | nilPanic => simp [renderItemsOn, hitem]
  | cons x xs ih =>
    intro w w1 w2 o hpre hitem ho
    rcases hx : renderMarkersOn sink r w x with ⟨wx, ox⟩
    cases ox with
    | ok =>
      have e : ∀ ys, renderItemsOn sink r w (x :: ys) = renderItemsOn sink r wx ys := by
        intro ys; simp [renderItemsOn, hx]
      rw [e] at hpre
      rw [List.cons_append, e]
      exact ih wx w1 w2 o hpre hitem ho
    | fail e => simp [renderItemsOn, hx] at hpre
    | nilPanic => simp [renderItemsOn, hx] at hpre

theorem renderItemsOn_all (sink : Sink) (r : TextRenderer) (xs ys : List (List Marker)) :
    ∀ (w w1 : SinkWriter), renderItemsOn sink r w xs = (w1, .ok) →
    renderItemsOn sink r w (xs ++ ys) = renderItemsOn sink r w1 ys := by
  induction xs with
  | nil =>
    intro w w1 h
    simp only [renderItemsOn, Prod.mk.injEq, and_true] at h
    subst h
    rfl
  | cons x xs ih =>
    intro w w1 h
    rcases hx : renderMarkersOn sink r w x with ⟨wx, ox⟩
    cases ox with
    | ok =>
      have e : ∀ zs, renderItemsOn sink r w (x :: zs) = renderItemsOn sink r wx zs := by
        intro zs; simp [renderItemsOn, hx]
      rw [e] at h
      rw [List.cons_append, e]
      exact ih wx w1 h
    | fail e => simp [renderItemsOn, hx] at h
    | nilPanic => simp [renderItemsOn, hx] at h

/-! ## The claims -/

/-- C1: for every renderer and every document whose sections are markup or list
sections whose markers (of the section, or of its list items) are all
TextMarkers with empty OpenMarkups and ClosedMarkups = 0, Render succeeds, has
flushed, and the text written is the concatenation of all marker Text values in
document order across all sections, with nothing inserted between them. -/
theorem C1_plain_text_document {U : Type} (url : UrlLib U) (r : TextRenderer) (doc : Document)
    (hdoc : ∀ sec ∈ doc.Sections,
      (sec.Typ = .MarkupSection ∨ sec.Typ = .ListSection) ∧
      (∀ m ∈ sectionMarkers sec, plainText m)) :
    Render url r doc
      = (⟨concatText ((doc.Sections.flatMap sectionMarkers).map Marker.Text), true⟩, .ok) := by
  have h := renderSections_text url r doc.Sections NewWriter (fun sec hs =>
    ⟨(hdoc sec hs).1, fun m hm => ((hdoc sec hs).2 m hm).1⟩)
  rw [Render_of_ok url r doc h.2, h.1]
  simp [NewWriter]

/-- C1 at `plainDoc`: the hypothesis holds and the output is the four texts
back to back. -/
theorem C1_plain_text_document_witness :
    (∀ sec ∈ plainDoc.Sections,
      (sec.Typ = .MarkupSection ∨ sec.Typ = .ListSection) ∧
      (∀ m ∈ sectionMarkers sec, plainText m)) ∧
    Render sampleUrl NewTextRenderer plainDoc = (⟨"one two three four", true⟩, .ok) :=
  ⟨by decide, C1_plain_text_document sampleUrl NewTextRenderer plainDoc (by decide)⟩

/-- C2, as stated, fails: with `atom1` registered to print `X`, an atom marker
whose atom has the name `atom1` and the text `T` does not put the output of the
registered renderer at its position. -/
theorem C2_counterexample :
    ¬ (∀ (r : TextRenderer) (w : Writer) (m : Marker) (a : Atom) (f : AtomFn),
        m.Typ = .AtomMarker → m.Atom = some a → r.Atoms a.Name = some f →
        (renderMarkers r w [m]).1.written = w.written ++ (f a.Text a.Payload).1) := by
  intro h
  have h1 := h shoutRenderer NewWriter (atomMarker [] 0 ⟨"atom1", "T", []⟩)
    ⟨"atom1", "T", []⟩ (fun _ _ => ("X", none)) rfl rfl rfl
  exact absurd h1 (by decide)

/-- C2, amended: for an AtomMarker whose atom name has a renderer registered in
r.Atoms, renderMarkers does not invoke that renderer: the raw Text of the atom
is what appears at the marker's position (after the output of the markers
before it, before the rendering of those after it), and the result is the same
under every other atom and card registry. -/
theorem C2_registered_atom_prints_raw_text (r : TextRenderer) (w w1 : Writer)
    (pre post : List Marker) (m : Marker) (a : Atom) (f : AtomFn)
    (hT : m.Typ = .AtomMarker) (hA : m.Atom = some a) (_hreg : r.Atoms a.Name = some f)
    (hpre : renderMarkers r w pre = (w1, .ok)) :
    renderMarkers r w (pre ++ m :: post)
        = renderMarkers r ⟨w1.written ++ a.Text, false⟩ post ∧
      ∀ r2 : TextRenderer,
        renderMarkers r2 w (pre ++ m :: post) = renderMarkers r w (pre ++ m :: post) :=
  ⟨renderMarkers_atom_at r w w1 pre post m a hT hA hpre,
    fun r2 => renderMarkers_registry r2 r w (pre ++ m :: post)⟩

/-- C2 amended, at the renderer that prints `X` for `atom1`: the text `T` of the
atom is written between the two text markers, not `X`. -/
theorem C2_registered_atom_prints_raw_text_witness :
    shoutRenderer.Atoms "atom1" = some (fun _ _ => ("X", none)) ∧
    renderMarkers shoutRenderer NewWriter [textMarker [] 0 "a "] = (⟨"a ", false⟩, .ok) ∧
    renderMarkers shoutRenderer NewWriter
        ([textMarker [] 0 "a "] ++ atomMarker [] 0 ⟨"atom1", "T", []⟩ :: [textMarker [] 0 " b"])
      = (⟨"a T b", false⟩, .ok) :=
  ⟨rfl, rfl, (C2_registered_atom_prints_raw_text shoutRenderer NewWriter ⟨"a ", false⟩
    [textMarker [] 0 "a "] [textMarker [] 0 " b"] (atomMarker [] 0 ⟨"atom1", "T", []⟩)
    ⟨"atom1", "T", []⟩ (fun _ _ => ("X", none)) rfl rfl rfl rfl).1⟩

/-- C3, as stated, fails: under the empty registry an atom marker whose atom
has the text `T` does write `T`, so it does contribute content. -/
theorem C3_counterexample :
    ¬ (∀ (r : TextRenderer) (w : Writer) (m : Marker) (a : Atom),
        m.Typ = .AtomMarker → m.Atom = some a → r.Atoms a.Name = none →
        (renderMarkers r w [m]).1.written = w.written ∧ (renderMarkers r w [m]).2 = .ok) := by
  intro h
  have h1 := h NewTextRenderer NewWriter (atomMarker [] 0 ⟨"atom1", "T", []⟩)
    ⟨"atom1", "T", []⟩ rfl rfl rfl
  exact absurd h1.1 (by decide)

/-- C3, amended: an AtomMarker whose atom name has no renderer registered in
r.Atoms causes no error and contributes exactly the Text of its atom: rendered
alone it appends that Text and returns nil, and inside a sequence the markers
after it are rendered from the writer so extended. -/
theorem C3_unregistered_atom_prints_text (r : TextRenderer) (w w1 : Writer)
    (pre post : List Marker) (m : Marker) (a : Atom)
    (hT : m.Typ = .AtomMarker) (hA : m.Atom = some a) (_hreg : r.Atoms a.Name = none)
    (hpre : renderMarkers r w pre = (w1, .ok)) :
    renderMarkers r w1 [m] = (⟨w1.written ++ a.Text, false⟩, .ok) ∧
      renderMarkers r w (pre ++ m :: post)
        = renderMarkers r ⟨w1.written ++ a.Text, false⟩ post := by
  refine ⟨?_, renderMarkers_atom_at r w w1 pre post m a hT hA hpre⟩
  have h := renderMarkers_atom_at r w1 w1 [] [] m a hT hA (renderMarkers_nil r w1)
  simpa [renderMarkers_nil] using h

/-- C3 amended, under the empty registry: the atom text `T` is written, without
error, alone and between two text markers. -/
theorem C3_unregistered_atom_prints_text_witness :
    NewTextRenderer.Atoms "atom1" = none ∧
    renderMarkers NewTextRenderer NewWriter [textMarker [] 0 "a "] = (⟨"a ", false⟩, .ok) ∧
    renderMarkers NewTextRenderer ⟨"a ", false⟩ [atomMarker [] 0 ⟨"atom1", "T", []⟩]
      = (⟨"a T", false⟩, .ok) ∧
    renderMarkers NewTextRenderer NewWriter
        ([textMarker [] 0 "a "] ++ atomMarker [] 0 ⟨"atom1", "T", []⟩ :: [textMarker [] 0 " b"])
      = (⟨"a T b", false⟩, .ok) :=
  ⟨rfl, rfl, C3_unregistered_atom_prints_text NewTextRenderer NewWriter ⟨"a ", false⟩
    [textMarker [] 0 "a "] [textMarker [] 0 " b"] (atomMarker [] 0 ⟨"atom1", "T", []⟩)
    ⟨"atom1", "T", []⟩ rfl rfl rfl rfl⟩

/-- C4: an AtomMarker (its atom present) contributes exactly the Text of its
atom: placed after markers `pre` that rendered without error, it leaves the
writer with that Text appended and rendering goes on with the markers after it,
so the output is the output of `pre`, the atom Text, the output of `post`. -/
theorem C4_atom_marker_prints_text (r : TextRenderer) (w w1 : Writer)
    (pre post : List Marker) (m : Marker) (a : Atom)
    (hT : m.Typ = .AtomMarker) (hA : m.Atom = some a)
    (hpre : renderMarkers r w pre = (w1, .ok)) :
    renderMarkers r w (pre ++ m :: post)
        = renderMarkers r ⟨w1.written ++ a.Text, false⟩ post ∧
      (renderMarkers r w (pre ++ m :: post)).1.written
        = w1.written ++ a.Text ++ (renderMarkers r NewWriter post).1.written := by
  have h := renderMarkers_atom_at r w w1 pre post m a hT hA hpre
  refine ⟨h, ?_⟩
  rw [h, ((renderMarkers_appends r post).shift _).1]

/-- C4 at the three atom markers of the test: the output is the three atom
texts back to back. -/
theorem C4_atom_marker_prints_text_witness :
    renderMarkers testRenderer NewWriter [atomMarker [] 0 atom1] = (⟨"__atom1_txt__", false⟩, .ok) ∧
    (renderMarkers testRenderer NewWriter
        ([atomMarker [] 0 atom1] ++ atomMarker [bold] 0 atom2 :: [atomMarker [] 1 atom1])).1.written
      = "__atom1_txt____atom2_txt____atom1_txt__" :=
  ⟨rfl, (C4_atom_marker_prints_text testRenderer NewWriter ⟨"__atom1_txt__", false⟩
    [atomMarker [] 0 atom1] [atomMarker [] 1 atom1] (atomMarker [bold] 0 atom2) atom2
    rfl rfl rfl).2⟩

/-- C5: for a CardSection whose Card.Name is a key of r.Cards, renderSection
appends to the writer exactly the text the registered function writes for the
card Payload and ends with exactly the result of that function; in Render,
when the sections before it succeed and the function returns nil, the text
written is the outputs of the preceding sections, then that text, then what
the following sections write, and the result is that of the following
sections. -/
theorem C5_registered_card_section {U : Type} (url : UrlLib U) (r : TextRenderer)
    (sec : Section) (card : Card) (f : CardFn)
    (hT : sec.Typ = .CardSection) (hC : sec.Card = some card)
    (hreg : r.Cards card.Name = some f) :
    (∀ w : Writer, renderSection url r w sec
        = (⟨w.written ++ (f card.Payload).1, false⟩, Outcome.ofError (f card.Payload).2)) ∧
    (∀ (doc : Document) (pre post : List Section),
        doc.Sections = pre ++ sec :: post →
        (∀ x ∈ pre, (renderSection url r NewWriter x).2 = .ok) →
        (f card.Payload).2 = none →
        (Render url r doc).1.written
            = concatText (pre.map (fun x => (renderSection url r NewWriter x).1.written))
                ++ (f card.Payload).1
                ++ (renderSections url r NewWriter post).1.written ∧
          (Render url r doc).2 = (renderSections url r NewWriter post).2) := by
  refine ⟨fun w => renderSection_card url r w sec card f hT hC hreg, ?_⟩
  intro doc pre post hdoc hpre hf
  have hp := renderSections_all_ok url r pre NewWriter hpre
  have hs := renderSection_card url r (renderSections url r NewWriter pre).1 sec card f hT hC hreg
  rw [hf] at hs
  have ha := renderSections_append url r pre (sec :: post) NewWriter
  have h1 : ((fun w => renderSections url r w pre) NewWriter).2 = .ok := hp.2
  rw [andThen_ok_snd h1] at ha
  have h2 : (fun w => renderSection url r w sec) (renderSections url r NewWriter pre).1
      = (⟨(renderSections url r NewWriter pre).1.written ++ (f card.Payload).1, false⟩, .ok) := hs
  simp only [renderSections_cons] at ha
  rw [andThen_ok h2] at ha
  have hsh := (renderSections_appends url r post).shift
    ⟨(renderSections url r NewWriter pre).1.written ++ (f card.Payload).1, false⟩
  have hR := Render_proj url r doc
  rw [hdoc, ha] at hR
  rw [hR.1, hR.2, hsh.1, hsh.2, hp.1]
  simp [NewWriter]

/-- C5 on the test renderer: the section of `card1` writes `**card1**`, and in
a document that text stands between the outputs of its neighbours. -/
theorem C5_registered_card_section_witness :
    renderSection sampleUrl testRenderer ⟨"a ", false⟩ (cardSection card1)
      = (⟨"a **card1**", false⟩, .ok) ∧
    (Render sampleUrl testRenderer
      (docOf [markupSection [textMarker [] 0 "a "], cardSection card1,
        markupSection [textMarker [] 0 " b"]])).1.written = "a **card1** b" :=
  ⟨(C5_registered_card_section sampleUrl testRenderer (cardSection card1) card1
      (fun _ => ("**card1**", none)) rfl rfl rfl).1 ⟨"a ", false⟩,
    ((C5_registered_card_section sampleUrl testRenderer (cardSection card1) card1
      (fun _ => ("**card1**", none)) rfl rfl rfl).2
      (docOf [markupSection [textMarker [] 0 "a "], cardSection card1,
        markupSection [textMarker [] 0 " b"]])
      [markupSection [textMarker [] 0 "a "]] [markupSection [textMarker [] 0 " b"]]
      rfl (by decide) rfl).1⟩

/-- C6: in a document with a CardSection whose Card.Name is not a key of
r.Cards and whose earlier sections all succeed, that section writes nothing and
returns the error `missing card renderer`, Render returns that error, and the
text written is the output of the earlier sections only, whatever the sections
after it are: none of them is rendered. -/
theorem C6_missing_card_renderer {U : Type} (url : UrlLib U) (r : TextRenderer)
    (doc : Document) (pre post : List Section) (sec : Section) (card : Card)
    (hdoc : doc.Sections = pre ++ sec :: post)
    (hT : sec.Typ = .CardSection) (hC : sec.Card = some card)
    (hreg : r.Cards card.Name = none)
    (hpre : ∀ x ∈ pre, (renderSection url r NewWriter x).2 = .ok) :
    (∀ w : Writer, renderSection url r w sec = (w, .fail "missing card renderer")) ∧
      (Render url r doc).2 = .fail "missing card renderer" ∧
      (Render url r doc).1.written
        = concatText (pre.map (fun x => (renderSection url r NewWriter x).1.written)) ∧
      Render url r doc = Render url r { doc with Sections := pre ++ [sec] } := by
  have hs := fun w => renderSection_card_missing url r w sec card hT hC hreg
  have hstop := fun post2 => renderSections_first_stop url r pre post2 sec
    (.fail "missing card renderer") NewWriter hpre (by rw [hs]) (by simp)
  have hR := Render_proj url r doc
  rw [hdoc] at hR
  refine ⟨hs, ?_, ?_, ?_⟩
  · rw [hR.2]; exact (hstop post).2
  · rw [hR.1, (hstop post).1, hs]; simp [NewWriter]
  · exact Render_stops_at url r doc pre post sec hdoc hpre (by rw [hs]; simp)

/-- C6 on the test renderer: after `card1`, the section of the unregistered
`card3` stops the render; the registered `card2` after it is not run. -/
theorem C6_missing_card_renderer_witness :
    testRenderer.Cards card3.Name = none ∧
    Render sampleUrl testRenderer (docOf [cardSection card1, cardSection card3, cardSection card2])
      = (⟨"**card1**", false⟩, .fail "missing card renderer") ∧
    (Render sampleUrl testRenderer
      (docOf [cardSection card1, cardSection card3, cardSection card2])).1.written
      = "**card1**" :=
  ⟨rfl, rfl, (C6_missing_card_renderer sampleUrl testRenderer
    (docOf [cardSection card1, cardSection card3, cardSection card2])
    [cardSection card1] [cardSection card2] (cardSection card3) card3
    rfl rfl rfl rfl (by decide)).2.2.1⟩

/-- C7: when the sections before `sec` all render without error and `sec`
fails with the error `e`, Render returns exactly `e`; the text written is the
outputs of the earlier sections followed by what `sec` wrote before failing,
and Render does the same as on the document cut after `sec`: the sections
after it are never rendered. -/
theorem C7_first_error_returned {U : Type} (url : UrlLib U) (r : TextRenderer)
    (doc : Document) (pre post : List Section) (sec : Section) (e : Error)
    (hdoc : doc.Sections = pre ++ sec :: post)
    (hpre : ∀ x ∈ pre, (renderSection url r NewWriter x).2 = .ok)
    (hsec : (renderSection url r NewWriter sec).2 = .fail e) :
    (Render url r doc).2 = .fail e ∧
      (Render url r doc).1.written
        = concatText (pre.map (fun x => (renderSection url r NewWriter x).1.written))
            ++ (renderSection url r NewWriter sec).1.written ∧
      Render url r doc = Render url r { doc with Sections := pre ++ [sec] } := by
  have hstop := renderSections_first_stop url r pre post sec (.fail e) NewWriter hpre hsec
    (by simp)
  have hR := Render_proj url r doc
  rw [hdoc] at hR
  refine ⟨?_, ?_, ?_⟩
  · rw [hR.2]; exact hstop.2
  · rw [hR.1, hstop.1]; simp [NewWriter]
  · exact Render_stops_at url r doc pre post sec hdoc hpre (by rw [hsec]; simp)

/-- C7 on the test renderer: the image whose source does not parse is the first
failing section; its error is returned, not the error the unregistered `card3`
after it would give, and only `a ` has been written. -/
theorem C7_first_error_returned_witness :
    (renderSection sampleUrl testRenderer NewWriter (imageSection "not a uri \x7f")).2
      = .fail "invalid control character in URL" ∧
    Render sampleUrl testRenderer (docOf [markupSection [textMarker [] 0 "a "],
        imageSection "not a uri \x7f", cardSection card3, cardSection card2])
      = (⟨"a ", false⟩, .fail "invalid control character in URL") ∧
    (Render sampleUrl testRenderer (docOf [markupSection [textMarker [] 0 "a "],
        imageSection "not a uri \x7f", cardSection card3, cardSection card2])).2
      = .fail "invalid control character in URL" :=
  ⟨rfl, rfl, (C7_first_error_returned sampleUrl testRenderer
    (docOf [markupSection [textMarker [] 0 "a "],
        imageSection "not a uri \x7f", cardSection card3, cardSection card2])
    [markupSection [textMarker [] 0 "a "]] [cardSection card3, cardSection card2]
    (imageSection "not a uri \x7f") "invalid control character in URL"
    rfl (by decide) rfl).1⟩

/-- C8, as stated, fails: with `atom1` registered to return the error `boom`,
rendering an atom marker for `atom1` does not return that error. -/
theorem C8_counterexample :
    ¬ (∀ (r : TextRenderer) (w : Writer) (m : Marker) (a : Atom) (f : AtomFn) (e : Error),
        m.Typ = .AtomMarker → m.Atom = some a → r.Atoms a.Name = some f →
        (f a.Text a.Payload).2 = some e → (renderMarkers r w [m]).2 = .fail e) := by
  intro h
  have h1 := h failingAtomRenderer NewWriter (atomMarker [] 0 ⟨"atom1", "T", []⟩)
    ⟨"atom1", "T", []⟩ (fun _ _ => ("", some "boom")) "boom" rfl rfl rfl rfl
  exact absurd h1 (by decide)

/-- C8, amended: where an AtomMarker names an atom whose registered renderer
would return an error, renderMarkers does not invoke that renderer: it writes
the Text of the atom, goes on with the markers after it, and returns no error
at all (for no marker sequence does renderMarkers return a non-nil error), so
the markup section holding these markers does not fail either. -/
theorem C8_atom_renderer_error_not_raised {U : Type} (url : UrlLib U) (r : TextRenderer)
    (w w1 : Writer) (pre post : List Marker) (m : Marker) (a : Atom) (f : AtomFn) (e : Error)
    (hT : m.Typ = .AtomMarker) (hA : m.Atom = some a) (_hreg : r.Atoms a.Name = some f)
    (_hf : (f a.Text a.Payload).2 = some e)
    (hpre : renderMarkers r w pre = (w1, .ok)) :
    renderMarkers r w (pre ++ m :: post)
        = renderMarkers r ⟨w1.written ++ a.Text, false⟩ post ∧
      (∀ e2 : Error, (renderMarkers r w (pre ++ m :: post)).2 ≠ .fail e2) ∧
      (∀ (sec : Section) (e2 : Error), sec.Typ = .MarkupSection →
        sec.Markers = pre ++ m :: post → (renderSection url r w sec).2 ≠ .fail e2) := by
  refine ⟨renderMarkers_atom_at r w w1 pre post m a hT hA hpre,
    fun e2 => renderMarkers_no_fail r (pre ++ m :: post) w e2, ?_⟩
  intro sec e2 hS hM
  have h : renderSection url r w sec = renderMarkers r w sec.Markers := by
    simp [renderSection, hS, renderMarkupSection_eq]
  rw [h]
  exact renderMarkers_no_fail r sec.Markers w e2

/-- C8 amended, at the renderer whose `atom1` returns `boom`: the marker for
`atom1` writes its text and the marker after it is rendered, without error. -/
theorem C8_atom_renderer_error_not_raised_witness :
    failingAtomRenderer.Atoms "atom1" = some (fun _ _ => ("", some "boom")) ∧
    renderMarkers failingAtomRenderer NewWriter
        ([textMarker [] 0 "a "] ++ atomMarker [] 0 ⟨"atom1", "T", []⟩ :: [textMarker [] 0 " b"])
      = (⟨"a T b", false⟩, .ok) :=
  ⟨rfl, (C8_atom_renderer_error_not_raised sampleUrl failingAtomRenderer NewWriter ⟨"a ", false⟩
    [textMarker [] 0 "a "] [textMarker [] 0 " b"] (atomMarker [] 0 ⟨"atom1", "T", []⟩)
    ⟨"atom1", "T", []⟩ (fun _ _ => ("", some "boom")) "boom" rfl rfl rfl rfl rfl).1⟩

/-- C9: for every marker sequence, renderMarkers gives the same writer (hence
the same output) and the same result on the sequence with every marker's
OpenMarkups emptied and ClosedMarkups set to 0. -/
theorem C9_markups_do_not_affect_output (r : TextRenderer) (w : Writer) (ms : List Marker) :
    renderMarkers r w (ms.map zeroMarkups) = renderMarkers r w ms := by
  have h := renderMarkersLoop_map r r zeroMarkups (fun m => ⟨rfl, rfl, rfl⟩) ms w ⟨[]⟩ ⟨[]⟩
  exact Prod.ext h.1 h.2

/-- C10: for a ListSection, when every item renders without error the text
the section appends is the concatenation, in item order, of what renderMarkers
writes for each item, with nothing between the items, and the section
succeeds; when an item fails after items that succeed, the section ends with
that item's failure, having appended the outputs of the items before it and
what the failing item wrote, whatever the items after it are. Over a sink that
may refuse a write the same holds of the loop: the items are rendered in order
on the writer the items before them left, and at the first item whose
renderMarkers returns an error (or stops) the list section returns that very
writer and that very error, whatever the items after it are; over the sink
that takes every write the loop is the list section of renderSection. -/
theorem C10_list_section {U : Type} (url : UrlLib U) (r : TextRenderer) (sec : Section)
    (hT : sec.Typ = .ListSection) :
    (∀ w : Writer, (∀ item ∈ sec.Items, (renderMarkers r NewWriter item).2 = .ok) →
        (renderSection url r w sec).1.written
            = w.written
                ++ concatText (sec.Items.map (fun item => (renderMarkers r NewWriter item).1.written)) ∧
          (renderSection url r w sec).2 = .ok) ∧
    (∀ (w : Writer) (pre post : List (List Marker)) (item : List Marker) (o : Outcome),
        sec.Items = pre ++ item :: post →
        (∀ x ∈ pre, (renderMarkers r NewWriter x).2 = .ok) →
        (renderMarkers r NewWriter item).2 = o → o ≠ .ok →
        (renderSection url r w sec).1.written
            = w.written
                ++ concatText (pre.map (fun x => (renderMarkers r NewWriter x).1.written))
                ++ (renderMarkers r NewWriter item).1.written ∧
          (renderSection url r w sec).2 = o) ∧
    (∀ (sink : Sink) (w w1 w2 : SinkWriter) (pre post : List (List Marker))
        (item : List Marker) (o : Outcome),
        sec.Items = pre ++ item :: post →
        renderItemsOn sink r w pre = (w1, .ok) →
        renderMarkersOn sink r w1 item = (w2, o) → o ≠ .ok →
        renderListSectionOn sink r w sec = (w2, o)) ∧
    (∀ (sink : Sink) (w w1 : SinkWriter) (pre post : List (List Marker)),
        sec.Items = pre ++ post →
        renderItemsOn sink r w pre = (w1, .ok) →
        renderListSectionOn sink r w sec = renderItemsOn sink r w1 post) ∧
    (∀ w : Writer, renderListSectionOn acceptAll r w.over sec
        = ((renderSection url r w sec).1.over, (renderSection url r w sec).2)) := by
  have hs : ∀ w, renderSection url r w sec
      = seqAll (fun item w => renderMarkers r w item) sec.Items w := by
    intro w
    rw [← renderItems_eq_seqAll]
    simp [renderSection, hT, renderListSection]
  refine ⟨?_, ?_, ?_, ?_, ?_⟩
  · intro w h
    rw [hs]
    exact seqAll_all_ok (fun item w => renderMarkers r w item)
      (fun item => renderMarkers_appends r item) sec.Items w h
  · intro w pre post item o hI hpre hitem ho
    rw [hs, hI]
    exact seqAll_first_stop (fun item w => renderMarkers r w item)
      (fun item => renderMarkers_appends r item) pre post item o w hpre hitem ho
  · intro sink w w1 w2 pre post item o hI hpre hitem ho
    rw [renderListSectionOn, hI]
    exact renderItemsOn_stop sink r pre post item w w1 w2 o hpre hitem ho
  · intro sink w w1 pre post hI hpre
    rw [renderListSectionOn, hI]
    exact renderItemsOn_all sink r pre post w w1 hpre
  · intro w
    have e : renderSection url r w sec = renderItems r w sec.Items := by
      simp [renderSection, hT, renderListSection]
    rw [renderListSectionOn, e]
    exact renderItemsOn_acceptAll r sec.Items w

/-- C10 on the list of the test document: the two items are written back to
back; in a list whose second item holds an atom marker without atom, the
section stops there and the third item is not written; and over a sink that
takes five characters the second item's write of `ef` is refused, the list
section returns that error, and the third item, which would stop on its atom
marker without atom, is not rendered. -/
theorem C10_list_section_witness :
    (renderSection sampleUrl testRenderer ⟨"x", false⟩
      (listSection
        [[textMarker [] 0 "then first ul item ",
          textMarker [bold] 1 "then second ul item 1 open 1 close markup "],
         [textMarker [bold] 0 "then another open markup ",
          textMarker [] 1 "then escaped html stuff <foo> "]])).1.written
      = "xthen first ul item then second ul item 1 open 1 close markup "
          ++ "then another open markup then escaped html stuff <foo> " ∧
    (renderSection sampleUrl testRenderer ⟨"x", false⟩
      (listSection [[textMarker [] 0 "a"], [textMarker [] 0 "b", ⟨.AtomMarker, [], 0, "", none⟩],
        [textMarker [] 0 "c"]])).2 = .nilPanic ∧
    (renderSection sampleUrl testRenderer ⟨"x", false⟩
      (listSection [[textMarker [] 0 "a"], [textMarker [] 0 "b", ⟨.AtomMarker, [], 0, "", none⟩],
        [textMarker [] 0 "c"]])).1.written = "xab" ∧
    renderItemsOn (boundedSink 5) testRenderer NewWriter.over [[textMarker [] 0 "ab"]]
      = (⟨"ab", false, none⟩, .ok) ∧
    renderMarkersOn (boundedSink 5) testRenderer ⟨"ab", false, none⟩
        [textMarker [] 0 "cd", textMarker [] 0 "ef"]
      = (⟨"abcd", false, some "short write"⟩, .fail "short write") ∧
    renderListSectionOn (boundedSink 5) testRenderer NewWriter.over
        (listSection [[textMarker [] 0 "ab"], [textMarker [] 0 "cd", textMarker [] 0 "ef"],
          [⟨.AtomMarker, [], 0, "", none⟩]])
      = (⟨"abcd", false, some "short write"⟩, .fail "short write") :=
  ⟨((C10_list_section sampleUrl testRenderer
      (listSection
        [[textMarker [] 0 "then first ul item ",
          textMarker [bold] 1 "then second ul item 1 open 1 close markup "],
         [textMarker [bold] 0 "then another open markup ",
          textMarker [] 1 "then escaped html stuff <foo> "]]) rfl).1 ⟨"x", false⟩
      (by decide)).1,
    rfl,
    ((C10_list_section sampleUrl testRenderer
      (listSection [[textMarker [] 0 "a"], [textMarker [] 0 "b", ⟨.AtomMarker, [], 0, "", none⟩],
        [textMarker [] 0 "c"]]) rfl).2.1 ⟨"x", false⟩ [[textMarker [] 0 "a"]]
      [[textMarker [] 0 "c"]] [textMarker [] 0 "b", ⟨.AtomMarker, [], 0, "", none⟩] .nilPanic
      rfl (by decide) rfl (by decide)).1,
    rfl,
    rfl,
    (C10_list_section sampleUrl testRenderer
      (listSection [[textMarker [] 0 "ab"], [textMarker [] 0 "cd", textMarker [] 0 "ef"],
        [⟨.AtomMarker, [], 0, "", none⟩]]) rfl).2.2.1 (boundedSink 5) NewWriter.over
      ⟨"ab", false, none⟩ ⟨"abcd", false, some "short write"⟩ [[textMarker [] 0 "ab"]]
      [[⟨.AtomMarker, [], 0, "", none⟩]] [textMarker [] 0 "cd", textMarker [] 0 "ef"]
      (.fail "short write") rfl rfl rfl (by decide)⟩

/-- C11: for an ImageSection, when parsing the Source fails the section ends
with that error and leaves the writer unchanged; when it succeeds with the URI
`u` the section appends exactly one space, the string form of `u` and one
space, and succeeds. -/
theorem C11_image_section {U : Type} (url : UrlLib U) (r : TextRenderer) (w : Writer)
    (sec : Section) (hT : sec.Typ = .ImageSection) :
    (∀ e : Error, url.Parse sec.Source = .error e →
        renderSection url r w sec = (w, .fail e)) ∧
    (∀ u : U, url.Parse sec.Source = .ok u →
        renderSection url r w sec = (⟨w.written ++ (" " ++ url.Str u ++ " "), false⟩, .ok)) := by
  refine ⟨fun e he => ?_, fun u hu => ?_⟩
  · simp [renderSection, hT, renderImageSection, he]
  · simp [renderSection, hT, renderImageSection, hu, Writer.WriteString]

/-- C11 on the sample URL library: the source with a control character fails
and nothing is written, by the section and by Render; the source of the test
is written between two spaces. -/
theorem C11_image_section_witness :
    renderSection sampleUrl testRenderer ⟨"x", false⟩ (imageSection "not a uri \x7f")
      = (⟨"x", false⟩, .fail "invalid control character in URL") ∧
    Render sampleUrl testRenderer (docOf [imageSection "not a uri \x7f"])
      = (⟨"", false⟩, .fail "invalid control character in URL") ∧
    renderSection sampleUrl testRenderer ⟨"x", false⟩ (imageSection "http://example.com/foo.png")
      = (⟨"x http://example.com/foo.png ", false⟩, .ok) :=
  ⟨(C11_image_section sampleUrl testRenderer ⟨"x", false⟩ (imageSection "not a uri \x7f") rfl).1
      "invalid control character in URL" rfl,
    rfl,
    (C11_image_section sampleUrl testRenderer ⟨"x", false⟩
      (imageSection "http://example.com/foo.png") rfl).2 "http://example.com/foo.png" rfl⟩

/-- C12: for a section whose Type is none of MarkupSection, ImageSection,
ListSection and CardSection, renderSection leaves the writer unchanged and
returns no error, whatever the other fields of the section, the URL library
and the registry are. -/
theorem C12_unknown_section_is_noop {U : Type} (url : UrlLib U) (r : TextRenderer) (w : Writer)
    (sec : Section) (hM : sec.Typ ≠ .MarkupSection) (hI : sec.Typ ≠ .ImageSection)
    (hL : sec.Typ ≠ .ListSection) (hC : sec.Typ ≠ .CardSection) :
    renderSection url r w sec = (w, .ok) := by
  cases h : sec.Typ with
  | MarkupSection => exact absurd h hM
  | ImageSection => exact absurd h hI
  | ListSection => exact absurd h hL
  | CardSection => exact absurd h hC
  | other c => simp [renderSection, h]

/-- C12 at a section of unknown kind that carries markers, an atom marker
without atom, a source that does not parse, items and an unregistered card:
nothing is written and no error is returned. -/
theorem C12_unknown_section_is_noop_witness :
    strangeSection.Typ ≠ .MarkupSection ∧ strangeSection.Typ ≠ .ImageSection ∧
    strangeSection.Typ ≠ .ListSection ∧ strangeSection.Typ ≠ .CardSection ∧
    renderSection sampleUrl testRenderer ⟨"x", false⟩ strangeSection = (⟨"x", false⟩, .ok) :=
  ⟨by decide, by decide, by decide, by decide,
    C12_unknown_section_is_noop sampleUrl testRenderer ⟨"x", false⟩ strangeSection
      (by decide) (by decide) (by decide) (by decide)⟩

/-- C13, as stated, fails: on the scenario document, with the card renderer
writing `**card1**` and the URI parsing and printing as itself, Render
succeeds but its output has no space between `**card1**` and `then text`, so
it is not the output the claim gives. -/
theorem C13_counterexample :
    testRenderer.Cards "card1" = some (fun _ => ("**card1**", none)) ∧
    sampleUrl.Parse "http://example.com/foo.png" = .ok "http://example.com/foo.png" ∧
    sampleUrl.Str "http://example.com/foo.png" = "http://example.com/foo.png" ∧
    Render sampleUrl testRenderer (scenarioDoc card1.Payload "then text ")
      = (⟨"**card1**then text then marked up text  http://example.com/foo.png ", true⟩, .ok) ∧
    (Render sampleUrl testRenderer (scenarioDoc card1.Payload "then text ")).1.written
      ≠ "**card1** then text then marked up text  http://example.com/foo.png " :=
  ⟨rfl, rfl, rfl, rfl, by decide⟩

/-- C13, amended: on the scenario document (card `card1` whose registered
renderer writes `**card1**`, the two text markers, the image whose URI parses
and prints as itself) Render succeeds and the output is exactly
`**card1**then text then marked up text  http://example.com/foo.png `, nothing
being inserted between the card and the first text; the output with a space
after `**card1**` is that of the document whose first marker has the text
` then text `, as in the test of the repository. -/
theorem C13_scenario_output {U : Type} (url : UrlLib U) (r : TextRenderer) (f : CardFn)
    (p : Map) (u : U)
    (hreg : r.Cards "card1" = some f) (hf : f p = ("**card1**", none))
    (hparse : url.Parse "http://example.com/foo.png" = .ok u)
    (hstr : url.Str u = "http://example.com/foo.png") :
    Render url r (scenarioDoc p "then text ")
        = (⟨"**card1**then text then marked up text  http://example.com/foo.png ", true⟩, .ok) ∧
      Render url r (scenarioDoc p " then text ")
        = (⟨"**card1** then text then marked up text  http://example.com/foo.png ", true⟩, .ok) := by
  constructor <;>
    simp [Render, scenarioDoc, docOf, cardSection, markupSection, imageSection, textMarker,
      renderSections, renderSection, renderCardSection, renderMarkupSection, renderImageSection,
      renderMarkers, renderMarkersLoop, renderMarker, hreg, hf, hparse, hstr, Writer.call,
      Writer.WriteString, Writer.Flush, NewWriter]

/-- C13 amended, on the test renderer and the sample URL library. -/
theorem C13_scenario_output_witness :
    Render sampleUrl testRenderer (scenarioDoc card1.Payload "then text ")
      = (⟨"**card1**then text then marked up text  http://example.com/foo.png ", true⟩, .ok) :=
  (C13_scenario_output sampleUrl testRenderer (fun _ => ("**card1**", none)) card1.Payload
    "http://example.com/foo.png" rfl rfl rfl rfl).1

/-- C14, as stated, fails: after the single marker that opens one markup and
closes one, the stack holds one markup, not the zero that opened minus closed
gives. -/
theorem C14_counterexample :
    ¬ (∀ (r : TextRenderer) (w : Writer) (pre : List Marker),
        (renderMarkersLoop r w ⟨[]⟩ pre).2.2 = .ok →
        (renderMarkersLoop r w ⟨[]⟩ pre).2.1.depth = openCount pre - closeCount pre) := by
  intro h
  have h1 := h testRenderer NewWriter [textMarker [bold] 1 "then marked up text "] rfl
  exact absurd h1 (by decide)

/-- C14, amended: renderMarkers starts every marker sequence with an empty
stack, and after a prefix that it processed without stopping the depth of the
stack equals the total number of OpenMarkups of the prefix: nothing is popped,
ClosedMarkups is not read; the markers after the prefix are processed from the
writer and stack the prefix left. -/
theorem C14_stack_depth_counts_opens (r : TextRenderer) (w : Writer) (pre post : List Marker)
    (hok : (renderMarkersLoop r w ⟨[]⟩ pre).2.2 = .ok) :
    renderMarkers r w (pre ++ post)
        = ((renderMarkersLoop r w ⟨[]⟩ (pre ++ post)).1,
            (renderMarkersLoop r w ⟨[]⟩ (pre ++ post)).2.2) ∧
      (⟨[]⟩ : markupStack).depth = 0 ∧
      (renderMarkersLoop r w ⟨[]⟩ pre).2.1.depth = openCount pre ∧
      renderMarkersLoop r w ⟨[]⟩ (pre ++ post)
        = renderMarkersLoop r (renderMarkersLoop r w ⟨[]⟩ pre).1
            (renderMarkersLoop r w ⟨[]⟩ pre).2.1 post := by
  refine ⟨rfl, rfl, ?_, renderMarkersLoop_append r pre post w ⟨[]⟩ hok⟩
  rw [renderMarkersLoop_depth r pre w ⟨[]⟩ hok]
  simp [markupStack.depth]

/-- C14 amended, on the first five markers of the paragraph of the test: four
markups are opened and three closed, and the depth is four. -/
theorem C14_stack_depth_counts_opens_witness :
    (renderMarkersLoop testRenderer NewWriter ⟨[]⟩
      [textMarker [] 0 " then text ", textMarker [bold] 1 "then marked up text ",
        textMarker [⟨"i", []⟩] 0 "then more ", textMarker [] 1 "then one close markup ",
        textMarker [⟨"i", []⟩, ⟨"a", [("href", .str "http://example.com")]⟩] 1
          "then 2 open 1 closed markups "]).2.2 = .ok ∧
    closeCount
      [textMarker [] 0 " then text ", textMarker [bold] 1 "then marked up text ",
        textMarker [⟨"i", []⟩] 0 "then more ", textMarker [] 1 "then one close markup ",
        textMarker [⟨"i", []⟩, ⟨"a", [("href", .str "http://example.com")]⟩] 1
          "then 2 open 1 closed markups "] = 3 ∧
    (renderMarkersLoop testRenderer NewWriter ⟨[]⟩
      [textMarker [] 0 " then text ", textMarker [bold] 1 "then marked up text ",
        textMarker [⟨"i", []⟩] 0 "then more ", textMarker [] 1 "then one close markup ",
        textMarker [⟨"i", []⟩, ⟨"a", [("href", .str "http://example.com")]⟩] 1
          "then 2 open 1 closed markups "]).2.1.depth = 4 :=
  ⟨rfl, rfl, (C14_stack_depth_counts_opens testRenderer NewWriter
      [textMarker [] 0 " then text ", textMarker [bold] 1 "then marked up text ",
        textMarker [⟨"i", []⟩] 0 "then more ", textMarker [] 1 "then one close markup ",
        textMarker [⟨"i", []⟩, ⟨"a", [("href", .str "http://example.com")]⟩] 1
          "then 2 open 1 closed markups "]
      [textMarker [] 1 "then one close markup "] rfl).2.2.1⟩

/-- C15: when every section of the document renders without error, Render
succeeds, has flushed, and the text written is the concatenation of the outputs
of the sections in document order, each section once; and for every split of
the sections into `a` followed by `b` the output is the output of Render over
`a` followed by the output of Render over `b`. -/
theorem C15_render_concatenates_sections {U : Type} (url : UrlLib U) (r : TextRenderer)
    (doc : Document)
    (hok : ∀ sec ∈ doc.Sections, (renderSection url r NewWriter sec).2 = .ok) :
    Render url r doc
        = (⟨concatText
              (doc.Sections.map (fun sec => (renderSection url r NewWriter sec).1.written)),
            true⟩, .ok) ∧
      ∀ a b : List Section, doc.Sections = a ++ b →
        (Render url r doc).1.written
          = (Render url r { doc with Sections := a }).1.written
              ++ (Render url r { doc with Sections := b }).1.written := by
  have hall : ∀ secs : List Section,
      (∀ sec ∈ secs, (renderSection url r NewWriter sec).2 = .ok) →
      (renderSections url r NewWriter secs).1.written
        = concatText (secs.map (fun sec => (renderSection url r NewWriter sec).1.written)) ∧
      (renderSections url r NewWriter secs).2 = .ok := by
    intro secs h
    have h1 := renderSections_all_ok url r secs NewWriter h
    refine ⟨?_, h1.2⟩
    rw [h1.1]; simp [NewWriter]
  have hd := hall doc.Sections hok
  refine ⟨?_, ?_⟩
  · rw [Render_of_ok url r doc hd.2, hd.1]
  · intro a b hab
    have ha := hall a (fun sec hs => hok sec (by rw [hab]; exact List.mem_append_left b hs))
    have hb := hall b (fun sec hs => hok sec (by rw [hab]; exact List.mem_append_right a hs))
    have e1 := (Render_proj url r doc).1
    have e2 := (Render_proj url r { doc with Sections := a }).1
    have e3 := (Render_proj url r { doc with Sections := b }).1
    simp only at e2 e3
    rw [e1, e2, e3, hd.1, ha.1, hb.1, hab, List.map_append, concatText_append]

set_option maxRecDepth 100000 in
/-- C15 on the document of the test: every section renders without error and
Render gives the output the test expects. -/
theorem C15_render_concatenates_sections_witness :
    (∀ sec ∈ testDoc.Sections, (renderSection sampleUrl testRenderer NewWriter sec).2 = .ok) ∧
    Render sampleUrl testRenderer testDoc = (⟨testOut, true⟩, .ok) :=
  ⟨by decide, (C15_render_concatenates_sections sampleUrl testRenderer testDoc (by decide)).1⟩

/-- C16, as stated, fails on documents with an absent reference: a paragraph
whose atom marker has no Atom, followed by an image that does not parse, ends
in the nil dereference, so no error is returned although a failing section
exists; and a document made of one paragraph whose atom marker has no Atom
does not render without failure. -/
theorem C16_counterexample :
    ¬ (∀ (r : TextRenderer) (doc : Document),
        ((∃ e, (Render sampleUrl r doc).2 = .fail e)
          ↔ ∃ sec ∈ doc.Sections, badSection sampleUrl r sec)) ∧
    ¬ (∀ (r : TextRenderer) (doc : Document),
        (∀ sec ∈ doc.Sections, sec.Typ ≠ .ImageSection ∧ sec.Typ ≠ .CardSection) →
        (Render sampleUrl r doc).2 = .ok) := by
  constructor
  · intro h
    have hbad : ∃ sec ∈ nilAtomThenImageDoc.Sections, badSection sampleUrl testRenderer sec :=
      ⟨imageSection "not a uri \x7f",
        List.mem_cons_of_mem _ (List.mem_cons_self _ _),
        Or.inl ⟨rfl, "invalid control character in URL", rfl⟩⟩
    obtain ⟨e, he⟩ := (h testRenderer nilAtomThenImageDoc).2 hbad
    have hp : (Render sampleUrl testRenderer nilAtomThenImageDoc).2 = .nilPanic := rfl
    rw [hp] at he
    exact absurd he (by simp)
  · intro h
    have h1 := h testRenderer nilAtomDoc (by decide)
    exact absurd h1 (by decide)

/-- C16, amended: for a document whose Atom and Card references are present
(every CardSection has its Card, every AtomMarker of a markup section or of a
list item has its Atom; writes to the sink succeed), Render returns an error
if and only if some section is an ImageSection whose Source fails to parse, or
a CardSection whose Card.Name is not a key of r.Cards, or a CardSection whose
registered renderer returns an error; in particular such a document without
image and card sections (only markup, list and unknown-kind sections) renders
without error. -/
theorem C16_render_error_iff_bad_section {U : Type} (url : UrlLib U) (r : TextRenderer)
    (doc : Document) (hrefs : refsPresent doc) :
    ((∃ e, (Render url r doc).2 = .fail e) ↔ ∃ sec ∈ doc.Sections, badSection url r sec) ∧
      ((∀ sec ∈ doc.Sections, sec.Typ ≠ .ImageSection ∧ sec.Typ ≠ .CardSection) →
        (Render url r doc).2 = .ok) := by
  have hR := (Render_proj url r doc).2
  rcases renderSections_refs url r doc.Sections NewWriter hrefs with
    ⟨hok, hnb⟩ | ⟨⟨e, he⟩, sec, hs, hb⟩
  · rw [hok] at hR
    refine ⟨⟨?_, ?_⟩, fun _ => hR⟩
    · rintro ⟨e, he⟩
      rw [hR] at he
      exact absurd he (by simp)
    · rintro ⟨sec, hs, hb⟩
      exact absurd hb (hnb sec hs)
  · rw [he] at hR
    refine ⟨⟨fun _ => ⟨sec, hs, hb⟩, fun _ => ⟨e, hR⟩⟩, ?_⟩
    intro hT
    obtain ⟨hI, hC⟩ := hT sec hs
    rcases hb with ⟨h1, _⟩ | ⟨h1, _⟩ | ⟨h1, _⟩
    · exact absurd h1 hI
    · exact absurd h1 hC
    · exact absurd h1 hC

/-- C16 amended, on two documents: in the one whose image does not parse Render returns
an error and a failing section exists; the plain document has no image and no
card and Render returns no error. -/
theorem C16_render_error_iff_bad_section_witness :
    refsPresent brokenImageDoc ∧
    (Render sampleUrl testRenderer brokenImageDoc).2 = .fail "invalid control character in URL" ∧
    (∃ sec ∈ brokenImageDoc.Sections, badSection sampleUrl testRenderer sec) ∧
    refsPresent plainDoc ∧
    (Render sampleUrl testRenderer plainDoc).2 = .ok :=
  ⟨by decide, rfl,
    (C16_render_error_iff_bad_section sampleUrl testRenderer brokenImageDoc (by decide)).1.1
      ⟨"invalid control character in URL", rfl⟩,
    by decide,
    (C16_render_error_iff_bad_section sampleUrl testRenderer plainDoc (by decide)).2
      (by decide)⟩

/-- C17: Render does not depend on the atom registry: two renderers with the
same Cards mapping, whatever their Atoms mappings are, give the same writer
(hence the same output) and the same result on every document. -/
theorem C17_render_ignores_atom_registry {U : Type} (url : UrlLib U) (r1 r2 : TextRenderer)
    (doc : Document) (hC : r1.Cards = r2.Cards) :
    Render url r1 doc = Render url r2 doc := by
  simp [Render, renderSections_cards url r1 r2 hC]

set_option maxRecDepth 100000 in
/-- C17 on the document of the test: the renderer whose `atom1` returns an
error and writes nothing gives the same output as the test renderer, whose
`atom1` prints its text. -/
theorem C17_render_ignores_atom_registry_witness :
    otherAtomsRenderer.Cards = testRenderer.Cards ∧
    (otherAtomsRenderer.Atoms "atom1").map (fun f => f "t" []) = some ("", some "boom") ∧
    (testRenderer.Atoms "atom1").map (fun f => f "t" []) = some ("t", none) ∧
    Render sampleUrl otherAtomsRenderer testDoc = Render sampleUrl testRenderer testDoc ∧
    Render sampleUrl testRenderer testDoc = (⟨testOut, true⟩, .ok) :=
  ⟨rfl, rfl, rfl,
    C17_render_ignores_atom_registry sampleUrl otherAtomsRenderer testRenderer testDoc rfl,
    by decide⟩

/-- C18: with the Atom and Card references optional, when every CardSection has
its Card and every AtomMarker among the markers of the markup sections and of
the items of the list sections has its Atom, Render does not end in the nil
dereference; nothing is asked of sections of unknown kind, of image sections
or of TextMarkers. -/
theorem C18_no_nil_dereference {U : Type} (url : UrlLib U) (r : TextRenderer)
    (doc : Document) (hrefs : refsPresent doc) :
    (Render url r doc).2 ≠ .nilPanic := by
  rw [(Render_proj url r doc).2]
  rcases renderSections_refs url r doc.Sections NewWriter hrefs with
    ⟨hok, _⟩ | ⟨⟨e, he⟩, _⟩
  · rw [hok]; simp
  · rw [he]; simp

/-- C18 on a document whose section of unknown kind has no card and atom
markers without atom, and whose text marker has no atom: the references needed
are present and Render does not end in the nil dereference. -/
theorem C18_no_nil_dereference_witness :
    refsPresent sparseDoc ∧
    bareSection.Card = none ∧
    (Render sampleUrl testRenderer sparseDoc).2 ≠ .nilPanic ∧
    Render sampleUrl testRenderer sparseDoc = (⟨"a __atom1_txt__**card1**", true⟩, .ok) :=
  ⟨by decide, rfl, C18_no_nil_dereference sampleUrl testRenderer sparseDoc (by decide), rfl⟩

end Mobiledoc
